import Mathlib

/-!
Verification of the business-rules engine and flow orchestrator of the
Claude-Plugins repository.

The development shallowly embeds the two parallel Python implementations:

* `src/prd-quality-gate-flow/business_rules_engine.py`  (namespace `PrdBRE`)
* `src/agentic-flow-builder/scripts/business_rules_engine.py` (namespace `AgBRE`)
* `src/agentic-flow-builder/scripts/flow_orchestrator.py` (namespace `AgOrch`)
* `src/prd-quality-gate-flow/flow_orchestrator.py` (namespace `PrdOrch`)

Python/JSON values are modelled by the inductive type `PyVal`; Python
exceptions by the `Except String` monad, with an error raised at exactly the
points where the Python code raises.  Python numbers (int, float, bool in
numeric position) are modelled exactly by `ℚ`; the `re.match` regular
expression call is modelled by an explicit matcher parameter `rm`
(returning `Option Bool`, `none` standing for a raised `re.error`).
-/

/-- Model of a Python/JSON value as manipulated by the engines. -/
inductive PyVal where
  | VNone
  | VBool (b : Bool)
  | VInt (n : Int)
  | VFloat (q : ℚ)
  | VStr (s : String)
  | VList (xs : List PyVal)
  | VDict (ps : List (String × PyVal))

instance : Inhabited PyVal := ⟨.VNone⟩

/-- `d[k]`/`d.get(k)` lookup on the association list backing a dict. -/
def dlookup (ps : List (String × PyVal)) (k : String) : Option PyVal :=
  match ps with
  | [] => Option.none
  | (k', v) :: rest => if k' = k then some v else dlookup rest k

theorem dlookup_sizeOf {ps : List (String × PyVal)} {k : String} {v : PyVal}
    (h : dlookup ps k = some v) : sizeOf v < sizeOf ps := by
  induction ps with
  | nil => simp [dlookup] at h
  | cons p rest ih =>
    obtain ⟨k', v'⟩ := p
    by_cases hk : k' = k
    · simp [dlookup, hk] at h
      subst h
      simp
      omega
    · simp [dlookup, hk] at h
      have := ih h
      simp
      omega

theorem mem_sizeOf {x : PyVal} {xs : List PyVal} (h : x ∈ xs) :
    sizeOf x < sizeOf xs := List.sizeOf_lt_of_mem h

/-- Is the value a Python number for comparison purposes
(`bool` is an `int` subclass in Python)? -/
def isNum : PyVal → Bool
  | .VBool _ => true
  | .VInt _ => true
  | .VFloat _ => true
  | _ => false

/-- Exact numeric value of a Python number. -/
def ratOf : PyVal → ℚ
  | .VBool b => if b then 1 else 0
  | .VInt n => (n : ℚ)
  | .VFloat q => q
  | _ => 0

mutual

/-- Python `==` on the modelled values (numeric cross-type equality,
order-insensitive dict equality). Total, as in Python. -/
def pyEq : PyVal → PyVal → Bool
  | .VNone, .VNone => true
  | .VStr s, .VStr t => s == t
  | .VList xs, .VList ys => pyEqList xs ys
  | .VDict ps, .VDict qs => ps.length == qs.length && pyEqDict ps qs
  | a, b => isNum a && isNum b && (ratOf a == ratOf b)
termination_by a b => sizeOf a + sizeOf b
decreasing_by
  all_goals simp_wf <;> omega

/-- Each key of the left dict maps to an equal value in the right dict. -/
def pyEqDict : List (String × PyVal) → List (String × PyVal) → Bool
  | [], _ => true
  | (k, v) :: rest, qs =>
      (match h : dlookup qs k with
       | some w => pyEq v w
       | Option.none => false) &&
      pyEqDict rest qs
termination_by ps qs => sizeOf ps + sizeOf qs
decreasing_by
  all_goals simp_wf
  all_goals try omega
  all_goals
    have hsz := dlookup_sizeOf h
    omega

def pyEqList : List PyVal → List PyVal → Bool
  | [], [] => true
  | x :: xs, y :: ys => pyEq x y && pyEqList xs ys
  | _, _ => false
termination_by xs ys => sizeOf xs + sizeOf ys
decreasing_by
  all_goals simp_wf <;> omega

end

/-- Does the value have Python `__len__` (str, list, dict)? Returns the length. -/
def pyLenOf : PyVal → Option Nat
  | .VStr s => some s.length
  | .VList xs => some xs.length
  | .VDict ps => some ps.length
  | _ => Option.none

/-- Python truthiness of a value. -/
def pyTruthy : PyVal → Bool
  | .VNone => false
  | .VBool b => b
  | .VInt n => n != 0
  | .VFloat q => q != 0
  | .VStr s => s != ""
  | .VList xs => !xs.isEmpty
  | .VDict ps => !ps.isEmpty

def isVNone : PyVal → Bool
  | .VNone => true
  | _ => false

/-- Split a string at every occurrence of a separator character
(Python `s.split(sep)`; yields `[""]` on the empty string). -/
def splitCharGo (sep : Char) : List Char → List Char → List String
  | [], acc => [String.mk acc.reverse]
  | c :: rest, acc =>
    if c == sep then String.mk acc.reverse :: splitCharGo sep rest []
    else splitCharGo sep rest (c :: acc)

def splitChar (sep : Char) (s : String) : List String :=
  splitCharGo sep s.toList []

/-- Python `s.strip()` (default whitespace). -/
def pyStrip (s : String) : String :=
  String.mk
    (((s.toList.dropWhile Char.isWhitespace).reverse.dropWhile
        Char.isWhitespace).reverse)

/-- Lexicographic code-point comparison (Python `str < str`). -/
def listLexLt : List Char → List Char → Bool
  | [], [] => false
  | [], _ :: _ => true
  | _ :: _, [] => false
  | a :: as, b :: bs => a.toNat < b.toNat || (a == b && listLexLt as bs)

def strLt (s t : String) : Bool :=
  listLexLt s.toList t.toList

def digitsToNat (cs : List Char) : Nat :=
  cs.foldl (fun acc c => acc * 10 + (c.toNat - 48)) 0

/-- Python `int(s)` on a string: optional sign then decimal digits
(exotic forms such as underscores are not modelled). -/
def parseIntStr (s : String) : Option Int :=
  let cs := (pyStrip s).toList
  let signAndDigits : Int × List Char :=
    match cs with
    | '+' :: rest => (1, rest)
    | '-' :: rest => (-1, rest)
    | _ => (1, cs)
  let sign := signAndDigits.1
  let ds := signAndDigits.2
  if ds.isEmpty then Option.none
  else if ds.all (·.isDigit) then some (sign * (digitsToNat ds : Int))
  else Option.none

/-- Python `float(s)` on a string: optional sign, decimal digits with at most
one point (exponents / inf / nan are not modelled). Result is the exact ℚ. -/
def parseFloatStr (s : String) : Option ℚ :=
  let cs := (pyStrip s).toList
  let signAndDigits : ℚ × List Char :=
    match cs with
    | '+' :: rest => (1, rest)
    | '-' :: rest => (-1, rest)
    | _ => (1, cs)
  let sign := signAndDigits.1
  let ds := signAndDigits.2
  match ds.splitOn '.' with
  | [a] =>
    if !a.isEmpty && a.all (·.isDigit) then some (sign * (digitsToNat a : ℚ))
    else Option.none
  | [a, b] =>
    if (a ++ b).isEmpty then Option.none
    else if a.all (·.isDigit) && b.all (·.isDigit) then
      some (sign * ((digitsToNat a : ℚ) + (digitsToNat b : ℚ) / (10 : ℚ) ^ b.length))
    else Option.none
  | _ => Option.none

/-- Python `float(x)`: numeric identity, string parse, TypeError otherwise. -/
def pyFloat : PyVal → Except String ℚ
  | .VBool b => .ok (if b then 1 else 0)
  | .VInt n => .ok (n : ℚ)
  | .VFloat q => .ok q
  | .VStr s =>
    match parseFloatStr s with
    | some q => .ok q
    | Option.none => .error ("ValueError: could not convert string to float: " ++ s)
  | _ => .error "TypeError: float() argument must be a string or a real number"

mutual

/-- Python `repr(x)` (approximate for floats; exact for the cases the
claims exercise). -/
def pyRepr : PyVal → String
  | .VNone => "None"
  | .VBool b => if b then "True" else "False"
  | .VInt n => toString n
  | .VFloat q => if q.den = 1 then toString q.num ++ ".0" else toString q
  | .VStr s => "'" ++ s ++ "'"
  | .VList xs => "[" ++ String.intercalate ", " (pyReprList xs) ++ "]"
  | .VDict ps => "\x7b" ++ String.intercalate ", " (pyReprDict ps) ++ "\x7d"
termination_by v => sizeOf v
decreasing_by
  all_goals simp_wf <;> omega

def pyReprList : List PyVal → List String
  | [] => []
  | x :: xs => pyRepr x :: pyReprList xs
termination_by xs => sizeOf xs
decreasing_by
  all_goals simp_wf <;> omega

def pyReprDict : List (String × PyVal) → List String
  | [] => []
  | (k, v) :: ps => ("'" ++ k ++ "': " ++ pyRepr v) :: pyReprDict ps
termination_by ps => sizeOf ps
decreasing_by
  all_goals simp_wf <;> omega

end

/-- Python `str(x)`: identity on strings, repr-like on everything else. -/
def pyStr : PyVal → String
  | .VStr s => s
  | v => pyRepr v

/-- Does `hay` start with `sub`? -/
def listStartsWith : List Char → List Char → Bool
  | _, [] => true
  | [], _ :: _ => false
  | h :: hs, s :: ss => h == s && listStartsWith hs ss

/-- Does `sub` occur contiguously in `hay`? -/
def listHasSub : List Char → List Char → Bool
  | hay, sub =>
    listStartsWith hay sub ||
    match hay with
    | [] => false
    | _ :: t => listHasSub t sub

/-- Substring test (`sub in hay` for Python strings). -/
def strContains (hay sub : String) : Bool :=
  listHasSub hay.toList sub.toList

/-- Python `a in coll`. Lists use `==` on elements, strings require a string
left operand (substring test), dicts test key membership. -/
def pyIn (a coll : PyVal) : Except String Bool :=
  match coll with
  | .VList xs => .ok (xs.any (pyEq a))
  | .VStr s =>
    match a with
    | .VStr sub => .ok (strContains s sub)
    | _ => .error "TypeError: 'in <string>' requires string as left operand"
  | .VDict ps =>
    match a with
    | .VStr k => .ok (dlookup ps k).isSome
    | _ => .ok false
  | _ => .error "TypeError: argument of type is not iterable"

mutual

/-- Python `a < b` (`operator.lt`): numbers cross-type, strings
lexicographically, lists elementwise; TypeError otherwise. -/
def pyLt : PyVal → PyVal → Except String Bool
  | .VStr s, .VStr t => .ok (strLt s t)
  | .VList xs, .VList ys => pyListLt xs ys
  | a, b =>
    if isNum a && isNum b then .ok (decide (ratOf a < ratOf b))
    else .error "TypeError: '<' not supported between instances"
termination_by a b => sizeOf a + sizeOf b
decreasing_by
  all_goals simp_wf <;> omega

def pyListLt : List PyVal → List PyVal → Except String Bool
  | [], [] => .ok false
  | [], _ :: _ => .ok true
  | _ :: _, [] => .ok false
  | x :: xs, y :: ys => if pyEq x y then pyListLt xs ys else pyLt x y
termination_by xs ys => sizeOf xs + sizeOf ys
decreasing_by
  all_goals simp_wf <;> omega

end

/-- Python `a <= b`: for the supported types, `a < b or a == b`. -/
def pyLe (a b : PyVal) : Except String Bool := do
  pure ((← pyLt a b) || pyEq a b)

/-- Python `a > b`. -/
def pyGt (a b : PyVal) : Except String Bool := pyLt b a

/-- Python `a >= b`. -/
def pyGe (a b : PyVal) : Except String Bool := pyLe b a

/-! ## `src/prd-quality-gate-flow/business_rules_engine.py` -/

namespace PrdBRE

/-- Inner navigation loop of `BusinessRulesEngine._get_field_value`:
`for part in parts: if value is None: return None;
 value = value.get(part) if dict else getattr(value, part, None)`.
On a non-dict value the source falls back to attribute access, whose result
depends on the Python object model (e.g. `(3).real == 3`, while a name the
value lacks defaults to `None`); that environment is outside the JSON data
model, so `getattr(value, part, None)` is modelled by the oracle parameter
`ga`, exactly as `re.match` is modelled by `rm`. -/
def navigate (ga : PyVal → String → PyVal) : List String → PyVal → PyVal
  | [], v => v
  | _ :: _, .VNone => .VNone
  | p :: rest, .VDict ps => navigate ga rest ((dlookup ps p).getD .VNone)
  | p :: rest, v => navigate ga rest (ga v p)

/-- The attribute oracle of a bare JSON value space: no value exposes any
attribute, so `getattr(value, part, None)` yields `None` (used to
instantiate `ga` at concrete witnesses whose navigations never leave
dicts, where every oracle agrees). -/
def noAttr : PyVal → String → PyVal := fun _ _ => .VNone

/-- `BusinessRulesEngine._get_field_value`, after splitting the path on `"."`.
The source tests `field_path.endswith(".length")` on the raw string and
recurses on `field_path[:-7]`; on the split representation that is exactly:
at least two segments and the last segment equal to `"length"`, recursing on
the segments without the last (the dropped text is the 7 chars `".length"`). -/
def getFieldGo (ga : PyVal → String → PyVal) (ctx : PyVal)
    (parts : List String) : PyVal :=
  if h : 2 ≤ parts.length ∧ parts.getLast? = some "length" then
    -- len(value) if value is not None and hasattr(value, '__len__') else 0
    match pyLenOf (getFieldGo ga ctx parts.dropLast) with
    | some n => .VInt (n : Int)
    | Option.none => .VInt 0
  else
    navigate ga parts ctx
termination_by parts.length
decreasing_by
  simp_wf
  omega

/-- `BusinessRulesEngine._get_field_value` (dot notation with the special
`.length` accessor; never raises). -/
def getFieldValue (ga : PyVal → String → PyVal) (path : String)
    (ctx : PyVal) : PyVal :=
  getFieldGo ga ctx (splitChar '.' path)

/-- `BusinessRulesEngine._compare_values`.  Relational operators coerce both
sides with `float(...)`, whose failures are raised (`ValueError`/`TypeError`)
and caught only at the rule level. -/
def compareValues (actual : PyVal) (op : String) (expected : PyVal) :
    Except String Bool :=
  if op = "IS NULL" then .ok (isVNone actual)
  else if op = "IS NOT NULL" then .ok (!isVNone actual)
  else if isVNone actual then .ok false
  else if op = "==" then .ok (pyEq actual expected)
  else if op = "!=" then .ok (!pyEq actual expected)
  else if op = ">" then do
    pure (decide ((← pyFloat expected) < (← pyFloat actual)))
  else if op = "<" then do
    pure (decide ((← pyFloat actual) < (← pyFloat expected)))
  else if op = ">=" then do
    pure (decide ((← pyFloat expected) ≤ (← pyFloat actual)))
  else if op = "<=" then do
    pure (decide ((← pyFloat actual) ≤ (← pyFloat expected)))
  else if op = "IN" then pyIn actual expected
  else if op = "NOT IN" then do
    pure (!(← pyIn actual expected))
  else .error ("Unknown operator: " ++ op)

mutual

/-- `BusinessRulesEngine._evaluate_condition`.  The matcher parameter `rm`
models `re.match` (`none` = raised `re.error`).  Conditions with a
non-list under `AND`/`OR`, a non-dict node, or other malformed shapes are
errors (`ValueError: Invalid condition format` or a raised builtin). -/
def evalCondition (rm : String → String → Option Bool)
    (ga : PyVal → String → PyVal) (cond ctx : PyVal) :
    Except String Bool :=
  match cond with
  | .VDict ps =>
    match hA : dlookup ps "AND" with
    | some (.VList cs) => evalCondAll rm ga cs ctx
    | some _ => .error "TypeError: AND operand is not a condition list"
    | Option.none =>
      match hO : dlookup ps "OR" with
      | some (.VList cs) => evalCondAny rm ga cs ctx
      | some _ => .error "TypeError: OR operand is not a condition list"
      | Option.none =>
        match hN : dlookup ps "NOT" with
        | some c => do pure (!(← evalCondition rm ga c ctx))
        | Option.none =>
          match dlookup ps "MATCHES" with
          | some (.VDict ms) =>
            match dlookup ms "field", dlookup ms "pattern" with
            | some (.VStr f), some (.VStr pat) =>
              let v := getFieldValue ga f ctx
              if isVNone v then .ok false
              else
                match rm pat (pyStr v) with
                | some b => .ok b
                | Option.none => .error "re.error: invalid pattern"
            | _, _ => .error "KeyError/TypeError in MATCHES payload"
          | some _ => .error "TypeError: MATCHES payload is not a dict"
          | Option.none =>
            match dlookup ps "field", dlookup ps "operator" with
            | some fv, some opv =>
              match fv, opv with
              | .VStr f, .VStr op =>
                compareValues (getFieldValue ga f ctx) op
                  ((dlookup ps "value").getD .VNone)
              | _, _ => .error "TypeError: field/operator must be strings"
            | _, _ => .error "ValueError: Invalid condition format"
  | _ => .error "ValueError: Invalid condition format"
termination_by sizeOf cond
decreasing_by
  all_goals simp_wf
  · have h1 := dlookup_sizeOf hA
    have h2 : sizeOf (PyVal.VList cs) = 1 + sizeOf cs := by simp
    omega
  · have h1 := dlookup_sizeOf hO
    have h2 : sizeOf (PyVal.VList cs) = 1 + sizeOf cs := by simp
    omega
  · have h1 := dlookup_sizeOf hN
    omega

/-- `all(self._evaluate_condition(c, context) for c in ...)`:
short-circuits at the first `False`. -/
def evalCondAll (rm : String → String → Option Bool)
    (ga : PyVal → String → PyVal) (cs : List PyVal)
    (ctx : PyVal) : Except String Bool :=
  match cs with
  | [] => .ok true
  | c :: rest => do
    if (← evalCondition rm ga c ctx) then evalCondAll rm ga rest ctx
    else pure false
termination_by sizeOf cs
decreasing_by
  all_goals simp_wf <;> omega

/-- `any(...)`: short-circuits at the first `True`. -/
def evalCondAny (rm : String → String → Option Bool)
    (ga : PyVal → String → PyVal) (cs : List PyVal)
    (ctx : PyVal) : Except String Bool :=
  match cs with
  | [] => .ok false
  | c :: rest => do
    if (← evalCondition rm ga c ctx) then pure true
    else evalCondAny rm ga rest ctx
termination_by sizeOf cs
decreasing_by
  all_goals simp_wf <;> omega

end

/-- `RuleEvaluationResult` (evaluation_details omitted: not used by any
claim). -/
structure RuleEvaluationResult where
  rule_id : String
  rule_name : String
  passed : Bool
  score : ℚ
  reason : String

/-- A business-rules row joined with its parsed `metadata` JSON:
`metadata.get('weight', 10)`, `metadata.get('critical', False)`,
`metadata.get('auto_kill_if_fail')`, `metadata.get('requires_human_if_fail')`. -/
structure BRRule where
  rule_id : String
  name : String
  condition : PyVal
  weight : ℚ := 10
  critical : Bool := false
  autoKill : Bool := false
  requiresHuman : Bool := false

/-- `BusinessRulesEngine.evaluate_rule`: binary scoring, evaluation errors
caught and turned into a failed result with score 0. -/
def evaluateRule (rm : String → String → Option Bool)
    (ga : PyVal → String → PyVal) (rule : BRRule)
    (ctx : PyVal) : RuleEvaluationResult :=
  match evalCondition rm ga rule.condition ctx with
  | .ok passed =>
    { rule_id := rule.rule_id, rule_name := rule.name, passed := passed,
      score := if passed then 100 else 0,
      reason := if passed then "Condition satisfied" else "Condition not met" }
  | .error e =>
    { rule_id := rule.rule_id, rule_name := rule.name, passed := false,
      score := 0, reason := "Evaluation error: " ++ e }

/-- The gate node's parsed config with the `.get` defaults of the source. -/
structure GateConfig where
  gate_type : String := "automated"
  pass_threshold : ℚ := 80
  decision_options : List String := ["GO", "RECYCLE"]

structure GateEvaluationResult where
  gate_id : String
  gate_name : String
  decision : String
  overall_score : ℚ
  passed : Bool
  rule_results : List RuleEvaluationResult
  reason : String
  recommendations : List String

/-- One database write performed by `_log_gate_evaluation`
(generated timestamp ids and the details JSON are omitted). -/
inductive LogWrite where
  | gateEval (execution_id gate_id rule_id status : String)
      (evaluation_result : Bool) (score : ℚ) (reason : String)
  | audit (execution_id gate_id decision : String) (score : ℚ) (reason : String)
      (rulesEvaluated rulesPassed : Nat)

/-- `BusinessRulesEngine._log_gate_evaluation`: one `gate_evaluations` row per
rule result, then one `audit_log` row for the aggregate decision. -/
def logGateEvaluation (execId gateId : String)
    (rrs : List RuleEvaluationResult) (decision : String) (score : ℚ)
    (reason : String) : List LogWrite :=
  rrs.map (fun r =>
    LogWrite.gateEval execId gateId r.rule_id decision r.passed r.score r.reason)
  ++ [LogWrite.audit execId gateId decision score reason rrs.length
        (rrs.filter (·.passed)).length]

/-- Outcome of the rule loop of `evaluate_gate`: either the auto-kill early
return, or the accumulated state at the end of the loop. -/
inductive LoopOut where
  | killed (rrs : List RuleEvaluationResult) (failName failReason : String)
  | finished (rrs : List RuleEvaluationResult) (totalWeight weightedScore : ℚ)
      (criticalFailures recommendations : List String)

/-- The `for rule in rules:` loop of `evaluate_gate` (lines 113-146). -/
def gateLoop (rm : String → String → Option Bool)
    (ga : PyVal → String → PyVal) (ctx : PyVal) :
    List BRRule → List RuleEvaluationResult → ℚ → ℚ → List String →
    List String → LoopOut
  | [], rrs, tw, ws, cf, recs => .finished rrs tw ws cf recs
  | rule :: rest, rrs, tw, ws, cf, recs =>
    let result := evaluateRule rm ga rule ctx
    let rrs' := rrs ++ [result]
    let tw' := tw + rule.weight
    if result.passed then
      gateLoop rm ga ctx rest rrs' tw' (ws + rule.weight * result.score) cf recs
    else
      let cf' := if rule.critical then cf ++ [result.rule_name] else cf
      if rule.autoKill then
        .killed rrs' result.rule_name result.reason
      else
        let recs' :=
          if rule.requiresHuman then
            recs ++ ["Human review required for: " ++ result.rule_name]
          else recs
        gateLoop rm ga ctx rest rrs' tw' ws cf' recs'

/-- `BusinessRulesEngine.evaluate_gate`, returning the result together with
the list of database writes it performs.  The interpolated scores inside the
reason f-strings are omitted from the reason text.  `pass_threshold * 0.7` is
modelled exactly as `pass_threshold * (7/10)`. -/
def evaluateGate (rm : String → String → Option Bool)
    (ga : PyVal → String → PyVal) (gateId gateName : String)
    (cfg : GateConfig) (rules : List BRRule) (ctx : PyVal)
    (execId : Option String) : GateEvaluationResult × List LogWrite :=
  if rules.isEmpty then
    ({ gate_id := gateId, gate_name := gateName, decision := "GO",
       overall_score := 100, passed := true, rule_results := [],
       reason := "No rules configured, automatic pass",
       recommendations := [] }, [])
  else
    match gateLoop rm ga ctx rules [] 0 0 [] [] with
    | .killed rrs failName failReason =>
      ({ gate_id := gateId, gate_name := gateName, decision := "KILL",
         overall_score := 0, passed := false, rule_results := rrs,
         reason := "Critical failure: " ++ failName,
         recommendations := ["Fix: " ++ failReason] }, [])
    | .finished rrs tw ws cf recs =>
      let overall : ℚ := if 0 < tw then ws / tw else 0
      let dpr : String × Bool × String :=
        if cfg.gate_type = "human" then
          ("PENDING_HUMAN_REVIEW", false, "Human review required")
        else if cf ≠ [] then
          ((if "RECYCLE" ∈ cfg.decision_options then "RECYCLE" else "HOLD"),
            false, "Critical failures: " ++ String.intercalate ", " cf)
        else if cfg.pass_threshold ≤ overall then
          ((if "GO" ∈ cfg.decision_options then "GO" else "PASS"),
            true, "All checks passed")
        else if cfg.pass_threshold * (7 / 10) ≤ overall then
          if recs ≠ [] then
            ("PENDING_HUMAN_REVIEW", false,
              "Marginal score, human review recommended")
          else
            ((if "RECYCLE" ∈ cfg.decision_options then "RECYCLE" else "HOLD"),
              false, "Score below threshold")
        else
          ((if "KILL" ∈ cfg.decision_options then "KILL" else "REJECT"),
            false, "Insufficient score")
      let logs :=
        match execId with
        | some e => logGateEvaluation e gateId rrs dpr.1 overall dpr.2.2
        | Option.none => []
      ({ gate_id := gateId, gate_name := gateName, decision := dpr.1,
         overall_score := overall, passed := dpr.2.1, rule_results := rrs,
         reason := dpr.2.2, recommendations := recs }, logs)

end PrdBRE

/-! ## `src/agentic-flow-builder/scripts/business_rules_engine.py` -/

namespace AgBRE

/-- Python `value[key]` for a string key (`_get_field_value` bracket branch). -/
def pyIndexKey (v : PyVal) (k : String) : Except String PyVal :=
  match v with
  | .VDict ps =>
    match dlookup ps k with
    | some w => .ok w
    | Option.none => .error ("KeyError: " ++ k)
  | .VList _ => .error "TypeError: list indices must be integers"
  | .VStr _ => .error "TypeError: string indices must be integers"
  | _ => .error "TypeError: object is not subscriptable"

/-- Python `value[i]` for an integer index (negative indices count from the
end; out of range raises `IndexError`). -/
def pyIndexInt (v : PyVal) (i : Int) : Except String PyVal :=
  match v with
  | .VList xs =>
    let j := if i < 0 then i + (xs.length : Int) else i
    if j < 0 then .error "IndexError: list index out of range"
    else
      match xs.get? j.toNat with
      | some x => .ok x
      | Option.none => .error "IndexError: list index out of range"
  | .VStr s =>
    let j := if i < 0 then i + (s.length : Int) else i
    if j < 0 then .error "IndexError: string index out of range"
    else
      match s.toList.get? j.toNat with
      | some c => .ok (.VStr (String.mk [c]))
      | Option.none => .error "IndexError: string index out of range"
  | .VDict _ => .error "KeyError: integer key"
  | _ => .error "TypeError: object is not subscriptable"

/-- Python `index.rstrip(']')`. -/
def rstripBracket (s : String) : String :=
  String.mk (s.toList.reverse.dropWhile (· == ']')).reverse

/-- One `part` of the `ExpressionEvaluator._get_field_value` loop.
A part containing `'['` is split as `key, index = part.split('[')`
(raising `ValueError` unless it splits in exactly two), the index parsed with
`int(...)`, and `value = value[key][index]` performed with Python indexing
(which can raise `KeyError`/`IndexError`/`TypeError`).  A part without a
bracket reads `value.get(part)` on dicts; on a non-dict the source returns
`None` outright, which coincides with yielding `None` here since the
caller's `if value is None: return None` check fires next. -/
def agPartStep (p : String) (v : PyVal) : Except String PyVal :=
  if p.toList.contains '[' then
    match splitChar '[' p with
    | [key, idxPart] =>
      match parseIntStr (rstripBracket idxPart) with
      | some i => do
        let v1 ← pyIndexKey v key
        pyIndexInt v1 i
      | Option.none => .error "ValueError: invalid literal for int()"
    | _ => .error "ValueError: too many values to unpack"
  else
    match v with
    | .VDict ps => .ok ((dlookup ps p).getD .VNone)
    | _ => .ok .VNone

/-- The `for part in parts:` loop of `ExpressionEvaluator._get_field_value`,
with its per-part `if value is None: return None` check. -/
def agNavigate : List String → PyVal → Except String PyVal
  | [], v => .ok v
  | p :: rest, v => do
    let v2 ← agPartStep p v
    if isVNone v2 then .ok .VNone else agNavigate rest v2

/-- `ExpressionEvaluator._get_field_value` (dot notation with `[i]` array
indexing; bracket handling can raise). -/
def getFieldValue (path : String) (ctx : PyVal) : Except String PyVal :=
  agNavigate (splitChar '.' path) ctx

/-- `type(actual) == type(expected)` (exact type equality; `bool ≠ int`). -/
def sameType : PyVal → PyVal → Bool
  | .VNone, .VNone => true
  | .VBool _, .VBool _ => true
  | .VInt _, .VInt _ => true
  | .VFloat _, .VFloat _ => true
  | .VStr _, .VStr _ => true
  | .VList _, .VList _ => true
  | .VDict _, .VDict _ => true
  | _, _ => false

/-- `isinstance(x, int)` (includes `bool`, a subclass of `int`). -/
def isInstInt : PyVal → Bool
  | .VBool _ => true
  | .VInt _ => true
  | _ => false

def isInstFloat : PyVal → Bool
  | .VFloat _ => true
  | _ => false

def isInstStr : PyVal → Bool
  | .VStr _ => true
  | _ => false

/-- `ExpressionEvaluator._coerce_types`: coerce `actual` toward the type of
`expected`; a `ValueError`/`TypeError` during coercion is swallowed and the
operands returned unchanged. -/
def coerceTypes (actual expected : PyVal) : PyVal × PyVal :=
  if sameType actual expected then (actual, expected)
  else if isInstInt expected && isInstStr actual then
    match actual with
    | .VStr s =>
      match parseIntStr s with
      | some n => (.VInt n, expected)
      | Option.none => (actual, expected)
    | _ => (actual, expected)
  else if isInstFloat expected && (isInstStr actual || isInstInt actual) then
    match pyFloat actual with
    | .ok q => (.VFloat q, expected)
    | .error _ => (actual, expected)
  else if isInstStr expected then
    (.VStr (pyStr actual), expected)
  else (actual, expected)

/-- The keys of `ExpressionEvaluator.COMPARISON_OPS`. -/
def comparisonOps : List String := ["==", "!=", "<", ">", "<=", ">="]

/-- Apply a `COMPARISON_OPS` operator with Python semantics. -/
def applyCmpOp (op : String) (a b : PyVal) : Except String Bool :=
  if op = "==" then .ok (pyEq a b)
  else if op = "!=" then .ok (!pyEq a b)
  else if op = "<" then pyLt a b
  else if op = ">" then pyGt a b
  else if op = "<=" then pyLe a b
  else if op = ">=" then pyGe a b
  else .error ("not a comparison operator: " ++ op)

/-- An error raised during `_evaluate_node`.  `structural` errors depend only
on the shape of the expression node (unknown node type, missing/ill-typed
node keys, unknown operator); `valueErr` errors depend on the resolved
context values (failed comparison, field-resolution errors, `re.error`). -/
inductive EvalErr where
  | structural (msg : String)
  | valueErr (msg : String)

def EvalErr.isStructural : EvalErr → Bool
  | .structural _ => true
  | .valueErr _ => false

/-- `ExpressionEvaluator._evaluate_comparison`.  Note that
`expected_value = node["value"]` is executed first, so a leaf without a
`"value"` key raises `KeyError` even for `IS NULL`/`IS NOT NULL`. -/
def evalComparison (ps : List (String × PyVal)) (ctx : PyVal)
    : Except EvalErr Bool :=
  match dlookup ps "value" with
  | Option.none => .error (.structural "KeyError: value")
  | some expected =>
    match dlookup ps "field" with
    | some (.VStr f) =>
      match dlookup ps "operator" with
      | some (.VStr op) => do
        let actual ← (getFieldValue f ctx).mapError EvalErr.valueErr
        if op = "IS NULL" then pure (isVNone actual)
        else if op = "IS NOT NULL" then pure (!isVNone actual)
        else if !comparisonOps.contains op then
          throw (.structural ("Unknown operator: " ++ op))
        else
          let ae := coerceTypes actual expected
          (applyCmpOp op ae.1 ae.2).mapError
            (fun m => .valueErr ("Comparison failed: " ++ m))
      | some _ => .error (.structural "Unknown operator: not a string")
      | Option.none => .error (.structural "KeyError: operator")
    | some _ => .error (.structural "AttributeError: field is not a string")
    | Option.none => .error (.structural "KeyError: field")

/-- `field = node.get("IN") or node.get("NOT IN")` (Python `or`: first
truthy operand). -/
def orGet (ps : List (String × PyVal)) (k1 k2 : String) : PyVal :=
  let a := (dlookup ps k1).getD .VNone
  if pyTruthy a then a else (dlookup ps k2).getD .VNone

/-- `ExpressionEvaluator._evaluate_membership`. -/
def evalMembership (ps : List (String × PyVal)) (ctx : PyVal) (inSet : Bool)
    : Except EvalErr Bool :=
  match orGet ps "IN" "NOT IN" with
  | .VStr f => do
    let values := (dlookup ps "values").getD (.VList [])
    let actual ← (getFieldValue f ctx).mapError EvalErr.valueErr
    let r ← (pyIn actual values).mapError EvalErr.valueErr
    pure (if inSet then r else !r)
  | _ => .error (.structural "AttributeError: field is not a string")

/-- `ExpressionEvaluator._evaluate_pattern_match`; no `None` guard:
the resolved value is passed through `str(...)` before matching. -/
def evalPatternMatch (rm : String → String → Option Bool)
    (ps : List (String × PyVal)) (ctx : PyVal) : Except EvalErr Bool :=
  match dlookup ps "MATCHES" with
  | some (.VDict ms) =>
    match dlookup ms "field", dlookup ms "pattern" with
    | some (.VStr f), some (.VStr pat) => do
      let actual ← (getFieldValue f ctx).mapError EvalErr.valueErr
      match rm pat (pyStr actual) with
      | some b => pure b
      | Option.none => throw (.valueErr "Pattern match failed")
    | _, _ => .error (.structural "KeyError/TypeError in MATCHES payload")
  | some _ => .error (.structural "TypeError: MATCHES payload is not a dict")
  | Option.none => .error (.structural "KeyError: MATCHES")

/-- `ExpressionEvaluator._evaluate_contains`. -/
def evalContains (ps : List (String × PyVal)) (ctx : PyVal)
    : Except EvalErr Bool :=
  match dlookup ps "CONTAINS" with
  | some (.VDict cs) =>
    match dlookup cs "field", dlookup cs "value" with
    | some (.VStr f), some (.VStr sub) => do
      let actual ← (getFieldValue f ctx).mapError EvalErr.valueErr
      pure (strContains (pyStr actual) sub)
    | _, _ => .error (.structural "KeyError/TypeError in CONTAINS payload")
  | some _ => .error (.structural "TypeError: CONTAINS payload is not a dict")
  | Option.none => .error (.structural "KeyError: CONTAINS")

mutual

/-- `ExpressionEvaluator._evaluate_node`: key checks in source order
(AND, OR, NOT, field+operator comparison, IN, NOT IN, MATCHES, CONTAINS,
else `Unknown expression node type`). -/
def evalNode (rm : String → String → Option Bool) (node ctx : PyVal)
    : Except EvalErr Bool :=
  match node with
  | .VDict ps =>
    match hA : dlookup ps "AND" with
    | some (.VList cs) => do
      -- results = [ ... for child in node["AND"]]; all(results)
      let rs ← evalNodeList rm cs ctx
      pure (rs.all id)
    | some _ => .error (.structural "TypeError: AND operand is not a list")
    | Option.none =>
      match hO : dlookup ps "OR" with
      | some (.VList cs) => do
        let rs ← evalNodeList rm cs ctx
        pure (rs.any id)
      | some _ => .error (.structural "TypeError: OR operand is not a list")
      | Option.none =>
        match hN : dlookup ps "NOT" with
        | some c => do pure (!(← evalNode rm c ctx))
        | Option.none =>
          if (dlookup ps "field").isSome && (dlookup ps "operator").isSome then
            evalComparison ps ctx
          else if (dlookup ps "IN").isSome then
            evalMembership ps ctx true
          else if (dlookup ps "NOT IN").isSome then
            evalMembership ps ctx false
          else if (dlookup ps "MATCHES").isSome then
            evalPatternMatch rm ps ctx
          else if (dlookup ps "CONTAINS").isSome then
            evalContains ps ctx
          else .error (.structural "Unknown expression node type")
  | _ => .error (.structural "Unknown expression node type")
termination_by sizeOf node
decreasing_by
  all_goals simp_wf
  · have h1 := dlookup_sizeOf hA
    have h2 : sizeOf (PyVal.VList cs) = 1 + sizeOf cs := by simp
    omega
  · have h1 := dlookup_sizeOf hO
    have h2 : sizeOf (PyVal.VList cs) = 1 + sizeOf cs := by simp
    omega
  · have h1 := dlookup_sizeOf hN
    omega

/-- The list comprehension over children: evaluates every child
(first raised error propagates). -/
def evalNodeList (rm : String → String → Option Bool) (cs : List PyVal)
    (ctx : PyVal) : Except EvalErr (List Bool) :=
  match cs with
  | [] => .ok []
  | c :: rest => do
    let b ← evalNode rm c ctx
    let bs ← evalNodeList rm rest ctx
    pure (b :: bs)
termination_by sizeOf cs
decreasing_by
  all_goals simp_wf <;> omega

end

mutual

/-- `BusinessRulesEngine._validate_node` (via `validate_rule_syntax`):
the same key checks but with a `value` requirement only for non-null
operators, and no structure requirements at all for the
IN / NOT IN / MATCHES / CONTAINS forms. -/
def validateNode (node : PyVal) : Except String Unit :=
  match node with
  | .VDict ps =>
    match hA : dlookup ps "AND" with
    | some (.VList cs) => validateNodeList cs
    | some _ => .error "AND operator requires a list of conditions"
    | Option.none =>
      match hO : dlookup ps "OR" with
      | some (.VList cs) => validateNodeList cs
      | some _ => .error "OR operator requires a list of conditions"
      | Option.none =>
        match hN : dlookup ps "NOT" with
        | some c => validateNode c
        | Option.none =>
          match dlookup ps "field" with
          | some _ =>
            match dlookup ps "operator" with
            | Option.none => .error "Comparison expression requires operator"
            | some (.VStr op) =>
              if !comparisonOps.contains op && op ≠ "IS NULL" &&
                  op ≠ "IS NOT NULL" then
                .error ("Unknown operator: " ++ op)
              else if op ≠ "IS NULL" && op ≠ "IS NOT NULL" &&
                  (dlookup ps "value").isNone then
                .error "Comparison expression requires value"
              else .ok ()
            | some _ => .error "Unknown operator: not a string"
          | Option.none =>
            if (dlookup ps "IN").isSome || (dlookup ps "NOT IN").isSome ||
                (dlookup ps "MATCHES").isSome ||
                (dlookup ps "CONTAINS").isSome then
              .ok ()
            else .error "Invalid expression node structure"
  | _ => .error "Expression node must be a dictionary"
termination_by sizeOf node
decreasing_by
  all_goals simp_wf
  · have h1 := dlookup_sizeOf hA
    have h2 : sizeOf (PyVal.VList cs) = 1 + sizeOf cs := by simp
    omega
  · have h1 := dlookup_sizeOf hO
    have h2 : sizeOf (PyVal.VList cs) = 1 + sizeOf cs := by simp
    omega
  · have h1 := dlookup_sizeOf hN
    omega

def validateNodeList (cs : List PyVal) : Except String Unit :=
  match cs with
  | [] => .ok ()
  | c :: rest => do
    validateNode c
    validateNodeList rest
termination_by sizeOf cs
decreasing_by
  all_goals simp_wf <;> omega

end

/-- `BusinessRulesEngine.validate_rule_syntax`. -/
def validateRuleSyntax (condition : PyVal) : Bool × Option String :=
  match validateNode condition with
  | .ok () => (true, Option.none)
  | .error e => (false, some e)

inductive RuleStatus where
  | PASS
  | FAIL
  | ERROR
deriving DecidableEq

structure RuleEvaluation where
  rule_id : String
  status : RuleStatus
  result : Bool
  reason : String

structure AgRule where
  rule_id : String
  name : String
  condition : PyVal

/-- `BusinessRulesEngine.evaluate_rule`: a raised `RuleEvaluationError`
becomes an ERROR evaluation with result `False` and an error reason
(the `_generate_reason` text for failures is abbreviated: the
details-derived condition listing is not modelled). -/
def evaluateRule (rm : String → String → Option Bool) (rule : AgRule)
    (ctx : PyVal) : RuleEvaluation :=
  match evalNode rm rule.condition ctx with
  | .ok result =>
    { rule_id := rule.rule_id,
      status := if result then .PASS else .FAIL,
      result := result,
      reason :=
        if result then "Rule '" ++ rule.name ++ "' passed: all conditions met"
        else "Rule '" ++ rule.name ++ "' failed" }
  | .error e =>
    { rule_id := rule.rule_id, status := .ERROR, result := false,
      reason := "Rule evaluation error: " ++
        (match e with
         | .structural m => m
         | .valueErr m => m) }

/-- `BusinessRulesEngine.evaluate_gate`: evaluates every gate rule,
`all_passed` iff each status is PASS. -/
def evaluateGate (rm : String → String → Option Bool) (rules : List AgRule)
    (ctx : PyVal) : Bool × List RuleEvaluation :=
  let evals := rules.map (fun r => evaluateRule rm r ctx)
  (evals.all (fun e => e.status = .PASS), evals)

end AgBRE

/-! ## `src/agentic-flow-builder/scripts/flow_orchestrator.py` -/

/-- A Python dict used as node input/output data. -/
abbrev Dict := List (String × PyVal)

namespace AgOrch

inductive NodeStatus where
  | pending
  | in_progress
  | completed
  | failed
  | skipped
deriving DecidableEq

/-- `NodeExecutionResult` (recursive through `child_results`). -/
inductive NodeExecutionResult where
  | mk (node_id : String) (status : NodeStatus) (output_data : Dict)
      (error : Option String) (child_results : List NodeExecutionResult)

def NodeExecutionResult.node_id : NodeExecutionResult → String
  | .mk i _ _ _ _ => i

def NodeExecutionResult.status : NodeExecutionResult → NodeStatus
  | .mk _ s _ _ _ => s

def NodeExecutionResult.output_data : NodeExecutionResult → Dict
  | .mk _ _ o _ _ => o

def NodeExecutionResult.child_results :
    NodeExecutionResult → List NodeExecutionResult
  | .mk _ _ _ _ c => c

/-- The `for child in children:` loop of
`FlowOrchestrator._execute_prompt_chaining`.  `step` models
`await self.execute_node(execution_id, child_id, data)`; an `Except.error`
is a raised exception and propagates out of the pattern.  The returned list
is the `results` accumulator: exactly the children that were executed. -/
def chainLoop (step : String → Dict → Except String NodeExecutionResult) :
    List String → Dict → List NodeExecutionResult →
    Except String (Dict × List NodeExecutionResult)
  | [], current, results => .ok (current, results)
  | c :: rest, current, results => do
    let r ← step c current
    let results' := results ++ [r]
    if r.status ≠ .completed then .ok (current, results')
    else chainLoop step rest r.output_data results'

/-- `FlowOrchestrator._execute_prompt_chaining`. -/
def promptChaining (step : String → Dict → Except String NodeExecutionResult)
    (node_id : String) (children : List String) (input : Dict) :
    Except String NodeExecutionResult := do
  let cr ← chainLoop step children input []
  pure (.mk node_id .completed cr.1 Option.none cr.2)

/-- `FlowOrchestrator._execute_parallelization`:
`asyncio.gather(*tasks, return_exceptions=True)` is modelled as the in-order
list of each child's result-or-exception; every child receives the same
`input` and one child's failure leaves the others' entries intact. -/
def parallelization (step : String → Dict → Except String NodeExecutionResult)
    (node_id : String) (children : List String) (input : Dict) :
    NodeExecutionResult :=
  let results := children.map (fun c => step c input)
  let successful := results.filterMap (fun r =>
    match r with
    | .ok r => if r.status = .completed then some r else Option.none
    | .error _ => Option.none)
  .mk node_id
    (if successful.isEmpty then .failed else .completed)
    [("parallel_results",
        .VList (successful.map (fun r => .VDict r.output_data))),
      ("success_count", .VInt successful.length),
      ("total_count", .VInt results.length)]
    Option.none
    successful

/-- `config.get('max_iterations', 3)` and
`config.get('quality_threshold', 0.8)` of `_execute_evaluator_optimizer`. -/
structure EvalOptConfig where
  max_iterations : Nat := 3
  quality_threshold : PyVal := .VFloat (4 / 5)

/-- One entry of the `iterations` trace. -/
structure IterRec where
  iteration : Nat
  generation : Dict
  evaluation : Dict
  score : PyVal

def IterRec.toVal (it : IterRec) : PyVal :=
  .VDict [("iteration", .VInt it.iteration),
          ("generation", .VDict it.generation),
          ("evaluation", .VDict it.evaluation),
          ("score", it.score)]

/-- `eval_result.output_data.get('score', 0)`. -/
def getScore (d : Dict) : PyVal :=
  (dlookup d "score").getD (.VInt 0)

/-- The `for i in range(max_iterations):` loop of
`_execute_evaluator_optimizer`: generate, evaluate, record, keep the best
strictly-improving generation, stop early once `score >= threshold`.
The Python comparisons `score > best_score` / `score >= threshold` can raise
`TypeError` on non-numeric scores; that raise propagates. -/
def evalOptLoop (step : String → Dict → Except String NodeExecutionResult)
    (genId evalId : String) (input : Dict) (threshold : PyVal) :
    Nat → Option Dict → PyVal → List IterRec → Nat →
    Except String (Option Dict × PyVal × List IterRec)
  | 0, best, bestScore, iters, _ => .ok (best, bestScore, iters)
  | n + 1, best, bestScore, iters, i => do
    let gen ← step genId input
    let ev ← step evalId gen.output_data
    let score := getScore ev.output_data
    let iters' := iters ++ [⟨i + 1, gen.output_data, ev.output_data, score⟩]
    let gtB ← pyGt score bestScore
    let bb := if gtB then (some gen.output_data, score) else (best, bestScore)
    let geT ← pyGe score threshold
    if geT then .ok (bb.1, bb.2, iters')
    else evalOptLoop step genId evalId input threshold n bb.1 bb.2 iters' (i + 1)

/-- `FlowOrchestrator._execute_evaluator_optimizer` (children resolved to
their ids; fewer than two children is the failed result of the source). -/
def evaluatorOptimizer
    (step : String → Dict → Except String NodeExecutionResult)
    (node_id : String) (children : List String) (input : Dict)
    (cfg : EvalOptConfig) : Except String NodeExecutionResult :=
  match children with
  | g :: e :: _ => do
    let r ← evalOptLoop step g e input cfg.quality_threshold
      cfg.max_iterations Option.none (.VInt 0) [] 0
    pure (.mk node_id .completed
      [("best_result",
          match r.1 with
          | some d => .VDict d
          | Option.none => .VNone),
        ("best_score", r.2.1),
        ("iterations", .VList (r.2.2.map IterRec.toVal)),
        ("total_iterations", .VInt r.2.2.length)]
      Option.none [])
  | _ =>
    .ok (.mk node_id .failed []
      (some "Evaluator-optimizer requires generator and evaluator nodes") [])

end AgOrch

/-! ## `src/prd-quality-gate-flow/flow_orchestrator.py` -/

namespace PrdOrch

/-- The decision-handling part of `FlowOrchestrator._execute_gate_node`
(after `result = self.bre.evaluate_gate(...)`).  `step` models
`await self._execute_node(child_id, execution_id)` (its result is the
child's output, which may itself be `None`); `children` are the gate's
children in order.  `ok Option.none` is the implicit Python `return None`
reached when the RECYCLE branch has no truthy `recycle_target`. -/
def handleGateDecision (step : String → Except String (Option Dict))
    (children : List String) (config : Dict)
    (res : PrdBRE.GateEvaluationResult) (gateNumber : String) :
    Except String (Option Dict) :=
  if res.decision ∈ (["GO", "PASS", "APPROVE", "RELEASE"] : List String) then
    match children with
    | c :: _ => step c
    | [] => .ok (some [("gate_passed", .VBool true),
                       ("decision", .VStr res.decision)])
  else if res.decision = "RECYCLE" then
    let target := (dlookup config "recycle_target").getD .VNone
    if pyTruthy target then
      .ok (some [("gate_passed", .VBool false),
                 ("decision", .VStr res.decision), ("recycle_to", target)])
    else .ok Option.none
  else if res.decision = "HOLD" ∨ res.decision = "QUEUE" then
    .ok (some [("gate_passed", .VBool false), ("decision", .VStr res.decision)])
  else if res.decision = "KILL" ∨ res.decision = "REJECT" then
    .error ("Gate " ++ gateNumber ++ " rejected: " ++ res.reason)
  else if res.decision = "PENDING_HUMAN_REVIEW" then
    .ok (some [("gate_passed", .VBool false),
               ("decision", .VStr res.decision),
               ("pending_review", .VBool true)])
  else .error ("Unknown gate decision: " ++ res.decision)

/-- The `try/except` recording wrapper of `FlowOrchestrator._execute_node`
around the per-type handler: on success the `node_executions` row is updated
to `completed` with `output_data = json.dumps(output)` (`json.dumps(None)`
is the string `"null"`); on an exception it is updated to `failed` with no
output, and the exception re-raised.  Returns (propagated result, recorded
status, recorded output — `some Option.none` standing for `"null"`). -/
def recordNodeExec (body : Except String (Option Dict)) :
    Except String (Option Dict) × String × Option (Option Dict) :=
  match body with
  | .ok out => (.ok out, "completed", some out)
  | .error e => (.error e, "failed", Option.none)

/-- The `prompt_chaining` branch of
`FlowOrchestrator._execute_control_flow_node`: children run strictly in
order (`result = {}` then `result = await self._execute_node(...)` per
child); a raised exception stops the loop and propagates; the last child's
output is returned.  Data flows through working memory, not through
per-child inputs. -/
def prdChain (step : String → Except String (Option Dict)) :
    List String → Option Dict → Except String (Option Dict)
  | [], result => .ok result
  | c :: rest, _ => do
    let r ← step c
    prdChain step rest r

def promptChaining (step : String → Except String (Option Dict))
    (children : List String) : Except String (Option Dict) :=
  prdChain step children (some [])

end PrdOrch

/-! ## Spec-side definitions used in the claim statements -/

namespace PrdBRE

/-- `Σ weight_i` over a rule list. -/
def totalWeight (rules : List BRRule) : ℚ :=
  (rules.map (·.weight)).sum

/-- `Σ weight_i · score_i` over a rule list (score of `evaluate_rule`). -/
def weightedScoreSum (rm : String → String → Option Bool)
    (ga : PyVal → String → PyVal) (ctx : PyVal)
    (rules : List BRRule) : ℚ :=
  (rules.map (fun r => r.weight * (evaluateRule rm ga r ctx).score)).sum

/-- Does this rule trigger the auto-kill short-circuit (flagged and failing)? -/
def killsB (rm : String → String → Option Bool)
    (ga : PyVal → String → PyVal) (ctx : PyVal) (r : BRRule) :
    Bool :=
  r.autoKill && !(evaluateRule rm ga r ctx).passed

/-- Names of failing critical rules, in rule order. -/
def criticalNames (rm : String → String → Option Bool)
    (ga : PyVal → String → PyVal) (ctx : PyVal)
    (rules : List BRRule) : List String :=
  (rules.filter
    (fun r => r.critical && !(evaluateRule rm ga r ctx).passed)).map (·.name)

/-- Recommendations produced by failing `requires_human_if_fail` rules. -/
def humanRecs (rm : String → String → Option Bool)
    (ga : PyVal → String → PyVal) (ctx : PyVal)
    (rules : List BRRule) : List String :=
  (rules.filter
    (fun r => r.requiresHuman && !(evaluateRule rm ga r ctx).passed)).map
    (fun r => "Human review required for: " ++ r.name)

end PrdBRE

namespace AgBRE

/-- The comparison leaf `{"field": "x", "operator": "IS NULL"}` without a
`"value"` key. -/
def isNullLeaf : PyVal :=
  .VDict [("field", .VStr "x"), ("operator", .VStr "IS NULL")]

/-- The node `{"field": "x", "IN": "x", "values": []}`: no `"operator"`. -/
def fieldInLeaf : PyVal :=
  .VDict [("field", .VStr "x"), ("IN", .VStr "x"), ("values", .VList [])]

/-- The canonical expression grammar on which validator and evaluator are
compared: AND/OR/NOT combinations over comparison leaves carrying
field, operator and value, and the canonical IN / NOT IN / MATCHES /
CONTAINS forms. -/
inductive Canon : PyVal → Prop where
  | cmp (f op : String) (v : PyVal)
      (hop : op ∈ comparisonOps ∨ op = "IS NULL" ∨ op = "IS NOT NULL") :
      Canon (.VDict [("field", .VStr f), ("operator", .VStr op), ("value", v)])
  | andN (cs : List PyVal) (h : ∀ c ∈ cs, Canon c) :
      Canon (.VDict [("AND", .VList cs)])
  | orN (cs : List PyVal) (h : ∀ c ∈ cs, Canon c) :
      Canon (.VDict [("OR", .VList cs)])
  | notN (c : PyVal) (h : Canon c) : Canon (.VDict [("NOT", c)])
  | inN (f : String) (hf : f ≠ "") (vs : List PyVal) :
      Canon (.VDict [("IN", .VStr f), ("values", .VList vs)])
  | notInN (f : String) (hf : f ≠ "") (vs : List PyVal) :
      Canon (.VDict [("NOT IN", .VStr f), ("values", .VList vs)])
  | matchesN (f pat : String) :
      Canon (.VDict [("MATCHES",
        .VDict [("field", .VStr f), ("pattern", .VStr pat)])])
  | containsN (f sub : String) :
      Canon (.VDict [("CONTAINS",
        .VDict [("field", .VStr f), ("value", .VStr sub)])])

end AgBRE

namespace AgOrch

/-- Did this gathered child result complete? -/
def isCompleted : Except String NodeExecutionResult → Bool
  | .ok r => r.status = .completed
  | .error _ => false

end AgOrch

unseal PrdBRE.getFieldGo PrdBRE.evalCondition PrdBRE.evalCondAll
  PrdBRE.evalCondAny AgBRE.evalNode AgBRE.evalNodeList AgBRE.validateNode
  AgBRE.validateNodeList pyEq pyEqDict pyEqList pyLt pyListLt pyRepr
  pyReprList pyReprDict

/-! ## Claim C4 — field resolution -/

theorem navigate_vnone (ga : PyVal → String → PyVal) (parts : List String) :
    PrdBRE.navigate ga parts .VNone = .VNone := by
  cases parts <;> rfl

/-- C4 counterexample: in the agentic-flow-builder resolver a bracketed
index that is out of range raises `IndexError` (and a missing key under a
bracket raises `KeyError`, a non-container raises `TypeError`) instead of
yielding the absent value; and in the prd resolver a non-dict intermediate
does not always yield `None`: `getattr` returns attributes the value does
have, so under the attribute environment of Python integers — where
`(3).real == 3` — the path `"x.real"` on `{"x": 3}` resolves to `3`. -/
theorem C4_counterexample :
    AgBRE.getFieldValue "items[5]"
      (.VDict [("items", .VList [.VInt 1, .VInt 2])]) =
      .error "IndexError: list index out of range" ∧
    AgBRE.getFieldValue "a[0]" (.VDict []) = .error "KeyError: a" ∧
    AgBRE.getFieldValue "a[0]" (.VDict [("a", .VInt 3)]) =
      .error "TypeError: object is not subscriptable" ∧
    PrdBRE.getFieldValue
      (fun v a =>
        match v, a with
        | .VInt n, "real" => .VInt n
        | _, _ => .VNone)
      "x.real" (.VDict [("x", .VInt 3)]) = .VInt 3 :=
  ⟨rfl, rfl, rfl, rfl⟩

/-- C4 (amended): on dot-paths without bracketed segments neither engine
raises; a missing map key yields `None` in both engines; a non-dict
intermediate yields `None` outright in the agentic resolver, while the prd
resolver instead continues from `getattr(value, part, None)` (the attribute
oracle `ga`), so its result is `None` exactly when the remaining navigation
from the looked-up attribute is; and prd navigation starting from `None`
stays `None`. -/
theorem C4_field_resolution :
    (∀ (parts : List String) (v : PyVal),
        (∀ p ∈ parts, p.toList.contains '[' = false) →
        ∃ w, AgBRE.agNavigate parts v = .ok w)
    ∧ (∀ p rest ps, p.toList.contains '[' = false →
        dlookup ps p = Option.none →
        AgBRE.agNavigate (p :: rest) (.VDict ps) = .ok .VNone)
    ∧ (∀ p rest v, p.toList.contains '[' = false →
        (∀ qs, v ≠ .VDict qs) →
        AgBRE.agNavigate (p :: rest) v = .ok .VNone)
    ∧ (∀ (ga : PyVal → String → PyVal) parts,
        PrdBRE.navigate ga parts .VNone = .VNone)
    ∧ (∀ (ga : PyVal → String → PyVal) p rest ps,
        dlookup ps p = Option.none →
        PrdBRE.navigate ga (p :: rest) (.VDict ps) = .VNone)
    ∧ (∀ (ga : PyVal → String → PyVal) p rest v,
        isVNone v = false → (∀ qs, v ≠ .VDict qs) →
        PrdBRE.navigate ga (p :: rest) v =
          PrdBRE.navigate ga rest (ga v p)) := by
  refine ⟨?_, ?_, ?_, navigate_vnone, ?_, ?_⟩
  · intro parts
    induction parts with
    | nil => exact fun v _ => ⟨v, rfl⟩
    | cons p rest ih =>
      intro v h
      have hp : p.toList.contains '[' = false := h p (List.mem_cons_self p rest)
      have hrest : ∀ q ∈ rest, q.toList.contains '[' = false :=
        fun q hq => h q (List.mem_cons_of_mem p hq)
      show ∃ w, AgBRE.agNavigate (p :: rest) v = .ok w
      have hstep : ∃ v2, AgBRE.agPartStep p v = .ok v2 := by
        unfold AgBRE.agPartStep
        rw [hp]
        simp only [Bool.false_eq_true, if_false]
        match v with
        | .VNone => exact ⟨.VNone, rfl⟩
        | .VBool b => exact ⟨.VNone, rfl⟩
        | .VInt n => exact ⟨.VNone, rfl⟩
        | .VFloat q => exact ⟨.VNone, rfl⟩
        | .VStr s => exact ⟨.VNone, rfl⟩
        | .VList xs => exact ⟨.VNone, rfl⟩
        | .VDict ps => exact ⟨_, rfl⟩
      obtain ⟨v2, hv2⟩ := hstep
      by_cases h2 : isVNone v2 = true
      · exact ⟨.VNone, by simp [AgBRE.agNavigate, hv2, h2, Except.bind, Bind.bind]⟩
      · obtain ⟨w, hw⟩ := ih v2 hrest
        exact ⟨w, by simp [AgBRE.agNavigate, hv2, h2, hw, Except.bind, Bind.bind]⟩
  · intro p rest ps hp h
    have hstep : AgBRE.agPartStep p (.VDict ps) = .ok .VNone := by
      unfold AgBRE.agPartStep
      rw [hp]
      simp only [Bool.false_eq_true, if_false]
      rw [h]
      rfl
    simp [AgBRE.agNavigate, hstep, isVNone, Except.bind, Bind.bind]
  · intro p rest v hp hnd
    have hstep : AgBRE.agPartStep p v = .ok .VNone := by
      match v with
      | .VDict ps => exact absurd rfl (hnd ps)
      | .VNone =>
        unfold AgBRE.agPartStep
        rw [hp]
        rfl
      | .VBool b =>
        unfold AgBRE.agPartStep
        rw [hp]
        rfl
      | .VInt n =>
        unfold AgBRE.agPartStep
        rw [hp]
        rfl
      | .VFloat q =>
        unfold AgBRE.agPartStep
        rw [hp]
        rfl
      | .VStr s =>
        unfold AgBRE.agPartStep
        rw [hp]
        rfl
      | .VList xs =>
        unfold AgBRE.agPartStep
        rw [hp]
        rfl
    simp [AgBRE.agNavigate, hstep, isVNone, Except.bind, Bind.bind]
  · intro ga p rest ps h
    show PrdBRE.navigate ga (p :: rest) (.VDict ps) = .VNone
    unfold PrdBRE.navigate
    rw [h]
    exact navigate_vnone ga rest
  · intro ga p rest v hnn hnd
    match v with
    | .VNone => simp [isVNone] at hnn
    | .VDict ps => exact absurd rfl (hnd ps)
    | .VBool b => rfl
    | .VInt n => rfl
    | .VFloat q => rfl
    | .VStr s => rfl
    | .VList xs => rfl

/-- C4 witness: the amended theorem applied at concrete inputs. -/
theorem C4_witness :
    (∃ w, AgBRE.agNavigate ["a", "b"] (.VDict []) = .ok w) ∧
    AgBRE.agNavigate ["a"] (.VDict []) = .ok .VNone ∧
    AgBRE.agNavigate ["z"] (.VInt 3) = .ok .VNone ∧
    PrdBRE.navigate PrdBRE.noAttr ["x", "y"] (.VDict []) = .VNone ∧
    PrdBRE.navigate PrdBRE.noAttr ["z"] (.VInt 3) =
      PrdBRE.navigate PrdBRE.noAttr [] (PrdBRE.noAttr (.VInt 3) "z") :=
  ⟨C4_field_resolution.1 ["a", "b"] (.VDict []) (by decide),
   C4_field_resolution.2.1 "a" [] [] (by decide) rfl,
   C4_field_resolution.2.2.1 "z" [] (.VInt 3) (by decide)
     (fun qs h => by cases h),
   C4_field_resolution.2.2.2.2.1 PrdBRE.noAttr "x" ["y"] [] rfl,
   C4_field_resolution.2.2.2.2.2 PrdBRE.noAttr "z" [] (.VInt 3) rfl
     (fun qs h => by cases h)⟩

/-! ## Claim C10 — RECYCLE without recycle_target -/

/-- C10: a gate whose evaluation decides RECYCLE but whose config has no
`recycle_target` falls through the handler and returns `None`; the node
execution is recorded completed with a null (`json.dumps(None) = "null"`)
output; no child/target node is invoked (the result holds for every `step`)
and no error is raised. -/
theorem C10_recycle_without_target
    (step : String → Except String (Option Dict)) (children : List String)
    (config : Dict) (res : PrdBRE.GateEvaluationResult) (gateNumber : String)
    (hdec : res.decision = "RECYCLE")
    (htgt : dlookup config "recycle_target" = Option.none) :
    PrdOrch.handleGateDecision step children config res gateNumber =
      .ok Option.none ∧
    PrdOrch.recordNodeExec
      (PrdOrch.handleGateDecision step children config res gateNumber) =
      (.ok Option.none, "completed", some Option.none) := by
  have h1 : PrdOrch.handleGateDecision step children config res gateNumber =
      .ok Option.none := by
    unfold PrdOrch.handleGateDecision
    rw [hdec]
    simp [htgt, pyTruthy]
  exact ⟨h1, by rw [h1]; rfl⟩

/-- C10 witness. -/
theorem C10_witness :
    PrdOrch.handleGateDecision (fun _ => .ok Option.none) ["child1"] []
      { gate_id := "g2", gate_name := "G2", decision := "RECYCLE",
        overall_score := 60, passed := false, rule_results := [],
        reason := "Score below threshold", recommendations := [] } "2" =
      .ok Option.none :=
  (C10_recycle_without_target (fun _ => .ok Option.none) ["child1"] []
    { gate_id := "g2", gate_name := "G2", decision := "RECYCLE",
      overall_score := 60, passed := false, rule_results := [],
      reason := "Score below threshold", recommendations := [] } "2"
    rfl rfl).1

/-! ## Shared lemmas about the prd gate-evaluation loop -/

theorem evaluateRule_rule_name (rm : String → String → Option Bool)
    (ga : PyVal → String → PyVal)
    (r : PrdBRE.BRRule) (ctx : PyVal) :
    (PrdBRE.evaluateRule rm ga r ctx).rule_name = r.name := by
  unfold PrdBRE.evaluateRule
  cases PrdBRE.evalCondition rm ga r.condition ctx <;> rfl

theorem evaluateRule_score (rm : String → String → Option Bool)
    (ga : PyVal → String → PyVal)
    (r : PrdBRE.BRRule) (ctx : PyVal) :
    (PrdBRE.evaluateRule rm ga r ctx).score =
      if (PrdBRE.evaluateRule rm ga r ctx).passed then 100 else 0 := by
  unfold PrdBRE.evaluateRule
  cases h : PrdBRE.evalCondition rm ga r.condition ctx with
  | ok b => cases b <;> simp
  | error e => simp

/-- Running the rule loop over rules none of which trigger auto-kill:
all rules are evaluated and the accumulators extend by the rule-list sums. -/
theorem gateLoop_no_kill (rm : String → String → Option Bool)
    (ga : PyVal → String → PyVal) (ctx : PyVal) :
    ∀ (rules : List PrdBRE.BRRule) rrs tw ws cf recs,
    (∀ r ∈ rules, PrdBRE.killsB rm ga ctx r = false) →
    PrdBRE.gateLoop rm ga ctx rules rrs tw ws cf recs =
      .finished (rrs ++ rules.map (PrdBRE.evaluateRule rm ga · ctx))
        (tw + PrdBRE.totalWeight rules)
        (ws + PrdBRE.weightedScoreSum rm ga ctx rules)
        (cf ++ PrdBRE.criticalNames rm ga ctx rules)
        (recs ++ PrdBRE.humanRecs rm ga ctx rules) := by
  intro rules
  induction rules with
  | nil =>
    intro rrs tw ws cf recs _
    simp [PrdBRE.gateLoop, PrdBRE.totalWeight, PrdBRE.weightedScoreSum,
      PrdBRE.criticalNames, PrdBRE.humanRecs]
  | cons r rest ih =>
    intro rrs tw ws cf recs h
    have hr : PrdBRE.killsB rm ga ctx r = false := h r (List.mem_cons_self r rest)
    have hrest : ∀ q ∈ rest, PrdBRE.killsB rm ga ctx q = false :=
      fun q hq => h q (List.mem_cons_of_mem r hq)
    unfold PrdBRE.gateLoop
    by_cases hp : (PrdBRE.evaluateRule rm ga r ctx).passed
    · simp only [hp, if_true]
      rw [ih _ _ _ _ _ hrest]
      simp [PrdBRE.totalWeight, PrdBRE.weightedScoreSum, PrdBRE.criticalNames,
        PrdBRE.humanRecs, List.filter_cons, hp, add_assoc]
    · have hpf : (PrdBRE.evaluateRule rm ga r ctx).passed = false := by
        simpa using hp
      have hak : r.autoKill = false := by
        have := hr
        unfold PrdBRE.killsB at this
        simp [hpf] at this
        exact this
      simp only [hpf, Bool.false_eq_true, if_false, hak]
      rw [ih _ _ _ _ _ hrest]
      have hs : (PrdBRE.evaluateRule rm ga r ctx).score = 0 := by
        rw [evaluateRule_score, hpf]
        simp
      cases hc : r.critical <;> cases hh : r.requiresHuman <;>
        simp [PrdBRE.totalWeight, PrdBRE.weightedScoreSum,
          PrdBRE.criticalNames, PrdBRE.humanRecs, List.filter_cons, hp, hc, hh,
          hs, evaluateRule_rule_name, add_assoc]

/-- Running the rule loop when a kill-triggering rule is reached after a
kill-free prefix: the loop returns KILL having evaluated exactly the prefix
and the killing rule. -/
theorem gateLoop_kill (rm : String → String → Option Bool)
    (ga : PyVal → String → PyVal) (ctx : PyVal) :
    ∀ (pre : List PrdBRE.BRRule) (k : PrdBRE.BRRule)
      (post : List PrdBRE.BRRule) rrs tw ws cf recs,
    (∀ r ∈ pre, PrdBRE.killsB rm ga ctx r = false) →
    PrdBRE.killsB rm ga ctx k = true →
    PrdBRE.gateLoop rm ga ctx (pre ++ k :: post) rrs tw ws cf recs =
      .killed (rrs ++ (pre ++ [k]).map (PrdBRE.evaluateRule rm ga · ctx))
        (PrdBRE.evaluateRule rm ga k ctx).rule_name
        (PrdBRE.evaluateRule rm ga k ctx).reason := by
  intro pre
  induction pre with
  | nil =>
    intro k post rrs tw ws cf recs _ hk
    have hak : k.autoKill = true ∧ (PrdBRE.evaluateRule rm ga k ctx).passed = false := by
      unfold PrdBRE.killsB at hk
      constructor
      · exact (Bool.and_eq_true _ _ |>.mp hk).1
      · have := (Bool.and_eq_true _ _ |>.mp hk).2
        simpa using this
    simp only [List.nil_append]
    unfold PrdBRE.gateLoop
    simp [hak.1, hak.2]
  | cons r rest ih =>
    intro k post rrs tw ws cf recs h hk
    have hr : PrdBRE.killsB rm ga ctx r = false := h r (List.mem_cons_self r rest)
    have hrest : ∀ q ∈ rest, PrdBRE.killsB rm ga ctx q = false :=
      fun q hq => h q (List.mem_cons_of_mem r hq)
    simp only [List.cons_append]
    unfold PrdBRE.gateLoop
    by_cases hp : (PrdBRE.evaluateRule rm ga r ctx).passed
    · simp only [hp, if_true]
      rw [ih _ _ _ _ _ _ _ hrest hk]
      simp
    · have hpf : (PrdBRE.evaluateRule rm ga r ctx).passed = false := by
        simpa using hp
      have hak : r.autoKill = false := by
        have := hr
        unfold PrdBRE.killsB at this
        simp [hpf] at this
        exact this
      simp only [hpf, Bool.false_eq_true, if_false, hak]
      cases hc : r.critical <;> cases hh : r.requiresHuman <;>
        · rw [ih _ _ _ _ _ _ _ hrest hk]
          simp

/-- Any rule list with a kill-triggering member splits at the first one. -/
theorem exists_first_kill (rm : String → String → Option Bool)
    (ga : PyVal → String → PyVal) (ctx : PyVal) :
    ∀ (rules : List PrdBRE.BRRule),
    (∃ r ∈ rules, PrdBRE.killsB rm ga ctx r = true) →
    ∃ pre k post, rules = pre ++ k :: post ∧
      (∀ r ∈ pre, PrdBRE.killsB rm ga ctx r = false) ∧
      PrdBRE.killsB rm ga ctx k = true := by
  intro rules
  induction rules with
  | nil => rintro ⟨r, hr, _⟩; cases hr
  | cons r rest ih =>
    intro h
    by_cases hr : PrdBRE.killsB rm ga ctx r = true
    · refine ⟨[], r, rest, rfl, ?_, hr⟩
      intro q hq
      exact absurd hq (List.not_mem_nil q)
    · have : ∃ q ∈ rest, PrdBRE.killsB rm ga ctx q = true := by
        obtain ⟨q, hq, hkq⟩ := h
        cases hq with
        | head => exact absurd hkq hr
        | tail _ hq' => exact ⟨q, hq', hkq⟩
      obtain ⟨pre, k, post, heq, hpre, hk⟩ := ih this
      refine ⟨r :: pre, k, post, by simp [heq], ?_, hk⟩
      intro q hq
      cases hq with
      | head => simpa using hr
      | tail _ hq' => exact hpre q hq'

/-! ## Claim C5 — coercion failures and rule-level error handling -/

/-- C5 counterexample: at the comparison level, an absent resolved operand
with a relational operator raises in the agentic evaluator (wrapped into a
`RuleEvaluationError`), and a type-coercion failure raises `ValueError` in
the prd comparison — neither evaluates to `False`. -/
theorem C5_counterexample :
    AgBRE.evalComparison
      [("field", .VStr "x"), ("operator", .VStr ">"), ("value", .VInt 5)]
      (.VDict []) =
      .error (.valueErr
        "Comparison failed: TypeError: '<' not supported between instances") ∧
    PrdBRE.compareValues (.VStr "abc") ">" (.VInt 5) =
      .error "ValueError: could not convert string to float: abc" :=
  ⟨rfl, rfl⟩

/-- C5 (amended): in the prd comparison an absent operand under a non-null
operator yields `False` (a coercion failure instead raises); the raised
error is caught per rule: the rule result is failed/errored with score 0 and
an error reason, and the gate still evaluates all rules — in the prd gate
(absent auto-kill failures) `rule_results` covers every rule, and in the
agentic gate one evaluation per rule is always produced, an erroring rule
yielding status ERROR with result `False`. -/
theorem C5_rule_level_error_handling :
    (∀ (op : String) (expected : PyVal), op ≠ "IS NULL" → op ≠ "IS NOT NULL" →
      PrdBRE.compareValues .VNone op expected = .ok false)
    ∧ (∀ (rm : String → String → Option Bool) (ga : PyVal → String → PyVal)
        (rule : PrdBRE.BRRule) (ctx : PyVal) (e : String),
        PrdBRE.evalCondition rm ga rule.condition ctx = .error e →
        PrdBRE.evaluateRule rm ga rule ctx =
          { rule_id := rule.rule_id, rule_name := rule.name, passed := false,
            score := 0, reason := "Evaluation error: " ++ e })
    ∧ (∀ (rm : String → String → Option Bool) (ga : PyVal → String → PyVal)
        (gid gname : String)
        (cfg : PrdBRE.GateConfig) (rules : List PrdBRE.BRRule) (ctx : PyVal)
        (execId : Option String),
        (∀ r ∈ rules, PrdBRE.killsB rm ga ctx r = false) →
        (PrdBRE.evaluateGate rm ga gid gname cfg rules ctx execId).1.rule_results
          = rules.map (PrdBRE.evaluateRule rm ga · ctx))
    ∧ (∀ (rm : String → String → Option Bool) (rules : List AgBRE.AgRule)
        (ctx : PyVal),
        (AgBRE.evaluateGate rm rules ctx).2.length = rules.length)
    ∧ (∀ (rm : String → String → Option Bool) (rule : AgBRE.AgRule)
        (ctx : PyVal) (e : AgBRE.EvalErr),
        AgBRE.evalNode rm rule.condition ctx = .error e →
        (AgBRE.evaluateRule rm rule ctx).status = .ERROR ∧
        (AgBRE.evaluateRule rm rule ctx).result = false) := by
  refine ⟨?_, ?_, ?_, ?_, ?_⟩
  · intro op expected h1 h2
    unfold PrdBRE.compareValues
    simp [h1, h2, isVNone]
  · intro rm ga rule ctx e h
    unfold PrdBRE.evaluateRule
    rw [h]
  · intro rm ga gid gname cfg rules ctx execId h
    unfold PrdBRE.evaluateGate
    by_cases hne : rules.isEmpty
    · have : rules = [] := List.isEmpty_iff.mp hne
      subst this
      simp
    · simp only [hne, Bool.false_eq_true, if_false]
      rw [gateLoop_no_kill rm ga ctx rules [] 0 0 [] [] h]
      simp
  · intro rm rules ctx
    unfold AgBRE.evaluateGate
    simp
  · intro rm rule ctx e h
    unfold AgBRE.evaluateRule
    rw [h]
    exact ⟨rfl, rfl⟩

/-- C5 witness: the amended theorem applied at concrete inputs. -/
theorem C5_witness :
    PrdBRE.compareValues .VNone ">" (.VInt 1) = .ok false ∧
    PrdBRE.evaluateRule (fun _ _ => some true) PrdBRE.noAttr
      { rule_id := "r1", name := "R1",
        condition := .VDict [("field", .VStr "x"), ("operator", .VStr ">"),
                             ("value", .VStr "oops")] }
      (.VDict [("x", .VInt 3)]) =
      { rule_id := "r1", rule_name := "R1", passed := false, score := 0,
        reason :=
          "Evaluation error: ValueError: could not convert string to float: oops" } ∧
    (AgBRE.evaluateGate (fun _ _ => some true)
      [{ rule_id := "a1", name := "A1", condition := .VDict [] }]
      (.VDict [])).2.length = 1 :=
  ⟨C5_rule_level_error_handling.1 ">" (.VInt 1)
      (by decide) (by decide),
   C5_rule_level_error_handling.2.1 (fun _ _ => some true) PrdBRE.noAttr
      { rule_id := "r1", name := "R1",
        condition := .VDict [("field", .VStr "x"), ("operator", .VStr ">"),
                             ("value", .VStr "oops")] }
      (.VDict [("x", .VInt 3)])
      "ValueError: could not convert string to float: oops" rfl,
   C5_rule_level_error_handling.2.2.2.1 (fun _ _ => some true)
      [{ rule_id := "a1", name := "A1", condition := .VDict [] }] (.VDict [])⟩

/-! ## Claim C2 — auto-kill short-circuit -/

/-- C2: if some enabled rule flagged `auto_kill_if_fail` fails, the gate
returns KILL with overall score 0 and `passed = False` regardless of any
other rule, having evaluated exactly the rules up to and including the
first such rule (rules after it are skipped); and this is the only path
that skips rules — absent a failing auto-kill rule, every rule appears in
`rule_results`. -/
theorem C2_auto_kill_short_circuit (rm : String → String → Option Bool)
    (ga : PyVal → String → PyVal)
    (gid gname : String) (cfg : PrdBRE.GateConfig)
    (rules : List PrdBRE.BRRule) (ctx : PyVal) (execId : Option String) :
    ((∃ r ∈ rules, PrdBRE.killsB rm ga ctx r = true) →
      ∃ pre k post, rules = pre ++ k :: post ∧
        (∀ r ∈ pre, PrdBRE.killsB rm ga ctx r = false) ∧
        PrdBRE.killsB rm ga ctx k = true ∧
        (PrdBRE.evaluateGate rm ga gid gname cfg rules ctx execId).1.decision
          = "KILL" ∧
        (PrdBRE.evaluateGate rm ga gid gname cfg rules ctx execId).1.overall_score
          = 0 ∧
        (PrdBRE.evaluateGate rm ga gid gname cfg rules ctx execId).1.passed
          = false ∧
        (PrdBRE.evaluateGate rm ga gid gname cfg rules ctx execId).1.rule_results
          = (pre ++ [k]).map (PrdBRE.evaluateRule rm ga · ctx))
    ∧ ((∀ r ∈ rules, PrdBRE.killsB rm ga ctx r = false) →
        (PrdBRE.evaluateGate rm ga gid gname cfg rules ctx execId).1.rule_results
          = rules.map (PrdBRE.evaluateRule rm ga · ctx)) := by
  constructor
  · intro h
    obtain ⟨pre, k, post, heq, hpre, hk⟩ :=
      exists_first_kill rm ga ctx rules h
    refine ⟨pre, k, post, heq, hpre, hk, ?_⟩
    have hE : rules.isEmpty = false := by
      rw [heq]
      cases pre <;> rfl
    have hgl := gateLoop_kill rm ga ctx pre k post [] 0 0 [] [] hpre hk
    unfold PrdBRE.evaluateGate
    rw [hE, heq]
    simp only [Bool.false_eq_true, if_false]
    rw [hgl]
    exact ⟨rfl, rfl, rfl, rfl⟩
  · intro h
    have hgl := gateLoop_no_kill rm ga ctx rules [] 0 0 [] [] h
    unfold PrdBRE.evaluateGate
    by_cases hE : rules.isEmpty
    · have : rules = [] := List.isEmpty_iff.mp hE
      subst this
      simp
    · simp only [hE, Bool.false_eq_true, if_false]
      rw [hgl]
      simp

/-- C2 witness: a gate whose single rule is a failing auto-kill rule. -/
theorem C2_witness :
    ∃ pre k post,
      ([{ rule_id := "kr", name := "KillRule",
          condition := .VDict [("field", .VStr "x"),
                               ("operator", .VStr "IS NOT NULL")],
          autoKill := true }] : List PrdBRE.BRRule) = pre ++ k :: post ∧
      (∀ r ∈ pre, PrdBRE.killsB (fun _ _ => some true) PrdBRE.noAttr (.VDict []) r = false) ∧
      PrdBRE.killsB (fun _ _ => some true) PrdBRE.noAttr (.VDict []) k = true ∧
      (PrdBRE.evaluateGate (fun _ _ => some true) PrdBRE.noAttr "g" "G" {}
        [{ rule_id := "kr", name := "KillRule",
           condition := .VDict [("field", .VStr "x"),
                                ("operator", .VStr "IS NOT NULL")],
           autoKill := true }] (.VDict []) (some "e1")).1.decision = "KILL" ∧
      (PrdBRE.evaluateGate (fun _ _ => some true) PrdBRE.noAttr "g" "G" {}
        [{ rule_id := "kr", name := "KillRule",
           condition := .VDict [("field", .VStr "x"),
                                ("operator", .VStr "IS NOT NULL")],
           autoKill := true }] (.VDict []) (some "e1")).1.overall_score = 0 ∧
      (PrdBRE.evaluateGate (fun _ _ => some true) PrdBRE.noAttr "g" "G" {}
        [{ rule_id := "kr", name := "KillRule",
           condition := .VDict [("field", .VStr "x"),
                                ("operator", .VStr "IS NOT NULL")],
           autoKill := true }] (.VDict []) (some "e1")).1.passed = false ∧
      (PrdBRE.evaluateGate (fun _ _ => some true) PrdBRE.noAttr "g" "G" {}
        [{ rule_id := "kr", name := "KillRule",
           condition := .VDict [("field", .VStr "x"),
                                ("operator", .VStr "IS NOT NULL")],
           autoKill := true }] (.VDict []) (some "e1")).1.rule_results =
        (pre ++ [k]).map
          (PrdBRE.evaluateRule (fun _ _ => some true) PrdBRE.noAttr · (.VDict [])) :=
  (C2_auto_kill_short_circuit (fun _ _ => some true) PrdBRE.noAttr "g" "G" {}
    [{ rule_id := "kr", name := "KillRule",
       condition := .VDict [("field", .VStr "x"),
                            ("operator", .VStr "IS NOT NULL")],
       autoKill := true }]
    (.VDict []) (some "e1")).1
    ⟨{ rule_id := "kr", name := "KillRule",
       condition := .VDict [("field", .VStr "x"),
                            ("operator", .VStr "IS NOT NULL")],
       autoKill := true },
     List.mem_cons_self _ _, rfl⟩

/-! ## Claim C1 — weighted scoring and threshold mapping -/

/-- `evaluate_gate` on a non-empty rule list with no auto-kill failure,
written out as the loop sums followed by the decision chain. -/
theorem evaluateGate_no_kill (rm : String → String → Option Bool)
    (ga : PyVal → String → PyVal)
    (gid gname : String) (cfg : PrdBRE.GateConfig)
    (rules : List PrdBRE.BRRule) (ctx : PyVal) (execId : Option String)
    (hkills : ∀ r ∈ rules, PrdBRE.killsB rm ga ctx r = false) (hne : rules ≠ []) :
    PrdBRE.evaluateGate rm ga gid gname cfg rules ctx execId =
      (let rrs := rules.map (PrdBRE.evaluateRule rm ga · ctx)
       let overall : ℚ :=
         if 0 < PrdBRE.totalWeight rules then
           PrdBRE.weightedScoreSum rm ga ctx rules / PrdBRE.totalWeight rules
         else 0
       let cf := PrdBRE.criticalNames rm ga ctx rules
       let recs := PrdBRE.humanRecs rm ga ctx rules
       let dpr : String × Bool × String :=
         if cfg.gate_type = "human" then
           ("PENDING_HUMAN_REVIEW", false, "Human review required")
         else if cf ≠ [] then
           ((if "RECYCLE" ∈ cfg.decision_options then "RECYCLE" else "HOLD"),
             false, "Critical failures: " ++ String.intercalate ", " cf)
         else if cfg.pass_threshold ≤ overall then
           ((if "GO" ∈ cfg.decision_options then "GO" else "PASS"), true,
             "All checks passed")
         else if cfg.pass_threshold * (7 / 10) ≤ overall then
           if recs ≠ [] then
             ("PENDING_HUMAN_REVIEW", false,
               "Marginal score, human review recommended")
           else
             ((if "RECYCLE" ∈ cfg.decision_options then "RECYCLE" else "HOLD"),
               false, "Score below threshold")
         else
           ((if "KILL" ∈ cfg.decision_options then "KILL" else "REJECT"),
             false, "Insufficient score")
       let logs :=
         match execId with
         | some e => PrdBRE.logGateEvaluation e gid rrs dpr.1 overall dpr.2.2
         | Option.none => []
       ({ gate_id := gid, gate_name := gname, decision := dpr.1,
          overall_score := overall, passed := dpr.2.1, rule_results := rrs,
          reason := dpr.2.2, recommendations := recs }, logs)) := by
  have hE : rules.isEmpty = false := by
    cases rules
    · exact absurd rfl hne
    · rfl
  unfold PrdBRE.evaluateGate
  rw [hE]
  simp only [Bool.false_eq_true, if_false]
  rw [gateLoop_no_kill rm ga ctx rules [] 0 0 [] [] hkills]
  simp

/-- The source's guarded division agrees with `Σ(w·s)/Σw` whenever all
weights are nonnegative (for total weight 0 both sides are 0, division by
zero being 0 in ℚ). -/
theorem overall_score_eq (rm : String → String → Option Bool)
    (ga : PyVal → String → PyVal) (ctx : PyVal)
    (rules : List PrdBRE.BRRule) (hw : ∀ r ∈ rules, 0 ≤ r.weight) :
    (if 0 < PrdBRE.totalWeight rules then
       PrdBRE.weightedScoreSum rm ga ctx rules / PrdBRE.totalWeight rules
     else 0)
    = PrdBRE.weightedScoreSum rm ga ctx rules / PrdBRE.totalWeight rules := by
  by_cases h : 0 < PrdBRE.totalWeight rules
  · simp [h]
  · have hnn : 0 ≤ PrdBRE.totalWeight rules := by
      unfold PrdBRE.totalWeight
      apply List.sum_nonneg
      intro x hx
      obtain ⟨r, hr, rfl⟩ := List.mem_map.mp hx
      exact hw r hr
    have htw0 : PrdBRE.totalWeight rules = 0 := le_antisymm (not_lt.mp h) hnn
    rw [htw0]
    simp

/-- C1 (amended): for a gate with at least one enabled rule, nonnegative
rule weights, gate type other than "human", and no critical or auto-kill
failures, `evaluate_gate` scores each rule 100/0 by its boolean outcome,
aggregates `overall_score = Σ(wᵢ·sᵢ)/Σwᵢ`, and maps the score against the
pass threshold T: `T ≤ s` pass-class (GO preferred over PASS);
`0.7·T ≤ s < T` with recommendations PENDING_HUMAN_REVIEW, without
recommendations RECYCLE/HOLD; `s < 0.7·T` KILL/REJECT. -/
theorem C1_weighted_scoring_threshold_mapping
    (rm : String → String → Option Bool)
    (ga : PyVal → String → PyVal) (gid gname : String)
    (cfg : PrdBRE.GateConfig) (rules : List PrdBRE.BRRule) (ctx : PyVal)
    (execId : Option String)
    (hne : rules ≠ [])
    (hhuman : cfg.gate_type ≠ "human")
    (hnocrit : ∀ r ∈ rules,
      (PrdBRE.evaluateRule rm ga r ctx).passed = false → r.critical = false)
    (hnokill : ∀ r ∈ rules,
      (PrdBRE.evaluateRule rm ga r ctx).passed = false → r.autoKill = false)
    (hw : ∀ r ∈ rules, 0 ≤ r.weight) :
    (∀ r ∈ rules, (PrdBRE.evaluateRule rm ga r ctx).score =
      if (PrdBRE.evaluateRule rm ga r ctx).passed then 100 else 0)
    ∧ (PrdBRE.evaluateGate rm ga gid gname cfg rules ctx execId).1.rule_results =
        rules.map (PrdBRE.evaluateRule rm ga · ctx)
    ∧ (PrdBRE.evaluateGate rm ga gid gname cfg rules ctx execId).1.overall_score =
        PrdBRE.weightedScoreSum rm ga ctx rules / PrdBRE.totalWeight rules
    ∧ (cfg.pass_threshold ≤
        (PrdBRE.evaluateGate rm ga gid gname cfg rules ctx execId).1.overall_score →
        (PrdBRE.evaluateGate rm ga gid gname cfg rules ctx execId).1.decision =
          (if "GO" ∈ cfg.decision_options then "GO" else "PASS") ∧
        (PrdBRE.evaluateGate rm ga gid gname cfg rules ctx execId).1.passed = true)
    ∧ (cfg.pass_threshold * (7 / 10) ≤
        (PrdBRE.evaluateGate rm ga gid gname cfg rules ctx execId).1.overall_score →
        (PrdBRE.evaluateGate rm ga gid gname cfg rules ctx execId).1.overall_score <
          cfg.pass_threshold →
        (PrdBRE.evaluateGate rm ga gid gname cfg rules ctx execId).1.recommendations
          ≠ [] →
        (PrdBRE.evaluateGate rm ga gid gname cfg rules ctx execId).1.decision =
          "PENDING_HUMAN_REVIEW")
    ∧ (cfg.pass_threshold * (7 / 10) ≤
        (PrdBRE.evaluateGate rm ga gid gname cfg rules ctx execId).1.overall_score →
        (PrdBRE.evaluateGate rm ga gid gname cfg rules ctx execId).1.overall_score <
          cfg.pass_threshold →
        (PrdBRE.evaluateGate rm ga gid gname cfg rules ctx execId).1.recommendations
          = [] →
        (PrdBRE.evaluateGate rm ga gid gname cfg rules ctx execId).1.decision =
          (if "RECYCLE" ∈ cfg.decision_options then "RECYCLE" else "HOLD"))
    ∧ ((PrdBRE.evaluateGate rm ga gid gname cfg rules ctx execId).1.overall_score <
        cfg.pass_threshold * (7 / 10) →
        (PrdBRE.evaluateGate rm ga gid gname cfg rules ctx execId).1.decision =
          (if "KILL" ∈ cfg.decision_options then "KILL" else "REJECT") ∧
        (PrdBRE.evaluateGate rm ga gid gname cfg rules ctx execId).1.passed =
          false) := by
  have hkills : ∀ r ∈ rules, PrdBRE.killsB rm ga ctx r = false := by
    intro r hr
    unfold PrdBRE.killsB
    cases hp : (PrdBRE.evaluateRule rm ga r ctx).passed
    · simp [hnokill r hr hp]
    · simp
  have hcf : PrdBRE.criticalNames rm ga ctx rules = [] := by
    unfold PrdBRE.criticalNames
    have : rules.filter
        (fun r => r.critical && !(PrdBRE.evaluateRule rm ga r ctx).passed) = [] := by
      rw [List.filter_eq_nil]
      intro r hr
      cases hp : (PrdBRE.evaluateRule rm ga r ctx).passed
      · simp [hnocrit r hr hp]
      · simp [hp]
    rw [this]
    rfl
  have hkey := evaluateGate_no_kill rm ga gid gname cfg rules ctx execId hkills hne
  refine ⟨fun r _ => evaluateRule_score rm ga r ctx, ?_, ?_, ?_, ?_, ?_, ?_⟩
  · rw [hkey]
  · rw [hkey]
    dsimp only
    exact overall_score_eq rm ga ctx rules hw
  · rw [hkey]
    dsimp only
    intro hT
    rw [if_neg hhuman, hcf]
    simp only [ne_eq, not_true_eq_false, if_false, reduceIte]
    rw [if_pos hT]
    exact ⟨rfl, rfl⟩
  · rw [hkey]
    dsimp only
    intro h1 h2 h3
    rw [if_neg hhuman, hcf]
    simp only [ne_eq, not_true_eq_false, if_false, reduceIte]
    rw [if_neg (not_le.mpr h2), if_pos h1, if_pos h3]
  · rw [hkey]
    dsimp only
    intro h1 h2 h3
    rw [if_neg hhuman, hcf]
    simp only [ne_eq, not_true_eq_false, if_false, reduceIte]
    rw [if_neg (not_le.mpr h2), if_pos h1]
    simp [h3]
  · rw [hkey]
    dsimp only
    intro h1
    rw [if_neg hhuman, hcf]
    simp only [ne_eq, not_true_eq_false, if_false, reduceIte]
    have hwss : 0 ≤ PrdBRE.weightedScoreSum rm ga ctx rules := by
      unfold PrdBRE.weightedScoreSum
      apply List.sum_nonneg
      intro x hx
      obtain ⟨r, hr, rfl⟩ := List.mem_map.mp hx
      apply mul_nonneg (hw r hr)
      rw [evaluateRule_score]
      by_cases hp : (PrdBRE.evaluateRule rm ga r ctx).passed <;> simp [hp]
    have hs0 : 0 ≤ (if 0 < PrdBRE.totalWeight rules then
        PrdBRE.weightedScoreSum rm ga ctx rules / PrdBRE.totalWeight rules
      else 0) := by
      by_cases htw : 0 < PrdBRE.totalWeight rules
      · rw [if_pos htw]
        exact div_nonneg hwss (le_of_lt htw)
      · rw [if_neg htw]
    have hT1 : ¬ (cfg.pass_threshold ≤
        (if 0 < PrdBRE.totalWeight rules then
          PrdBRE.weightedScoreSum rm ga ctx rules / PrdBRE.totalWeight rules
        else 0)) := by
      intro hc
      linarith
    rw [if_neg hT1, if_neg (not_le.mpr h1)]
    exact ⟨rfl, rfl⟩

/-- C1 witness: a one-rule automated gate whose rule passes scores 100 and
decides GO. -/
theorem C1_witness :
    (PrdBRE.evaluateGate (fun _ _ => some true) PrdBRE.noAttr "g1" "G1" {}
      [{ rule_id := "r1", name := "R1",
         condition := .VDict [("field", .VStr "x"),
                              ("operator", .VStr "IS NOT NULL")] }]
      (.VDict [("x", .VInt 1)]) Option.none).1.overall_score =
      PrdBRE.weightedScoreSum (fun _ _ => some true) PrdBRE.noAttr (.VDict [("x", .VInt 1)])
        [{ rule_id := "r1", name := "R1",
           condition := .VDict [("field", .VStr "x"),
                                ("operator", .VStr "IS NOT NULL")] }] /
      PrdBRE.totalWeight
        [{ rule_id := "r1", name := "R1",
           condition := .VDict [("field", .VStr "x"),
                                ("operator", .VStr "IS NOT NULL")] }] ∧
    (PrdBRE.evaluateGate (fun _ _ => some true) PrdBRE.noAttr "g1" "G1" {}
      [{ rule_id := "r1", name := "R1",
         condition := .VDict [("field", .VStr "x"),
                              ("operator", .VStr "IS NOT NULL")] }]
      (.VDict [("x", .VInt 1)]) Option.none).1.decision = "GO" := by
  have h := C1_weighted_scoring_threshold_mapping (fun _ _ => some true)
    PrdBRE.noAttr "g1" "G1" {}
    [{ rule_id := "r1", name := "R1",
       condition := .VDict [("field", .VStr "x"),
                            ("operator", .VStr "IS NOT NULL")] }]
    (.VDict [("x", .VInt 1)]) Option.none
    (List.cons_ne_nil _ _)
    (by decide)
    (fun r hr _ => by rw [List.mem_singleton.mp hr])
    (fun r hr _ => by rw [List.mem_singleton.mp hr])
    (fun r hr => by rw [List.mem_singleton.mp hr]; norm_num)
  have hrule : PrdBRE.evaluateRule (fun _ _ => some true) PrdBRE.noAttr
      { rule_id := "r1", name := "R1",
        condition := .VDict [("field", .VStr "x"),
                             ("operator", .VStr "IS NOT NULL")] }
      (.VDict [("x", .VInt 1)]) =
      { rule_id := "r1", rule_name := "R1", passed := true, score := 100,
        reason := "Condition satisfied" } := rfl
  have hov := h.2.2.1
  have hval : PrdBRE.weightedScoreSum (fun _ _ => some true) PrdBRE.noAttr
        (.VDict [("x", .VInt 1)])
        [{ rule_id := "r1", name := "R1",
           condition := .VDict [("field", .VStr "x"),
                                ("operator", .VStr "IS NOT NULL")] }] /
      PrdBRE.totalWeight
        [{ rule_id := "r1", name := "R1",
           condition := .VDict [("field", .VStr "x"),
                                ("operator", .VStr "IS NOT NULL")] }] =
      100 := by
    unfold PrdBRE.weightedScoreSum PrdBRE.totalWeight
    rw [List.map_singleton, List.map_singleton, hrule]
    norm_num
  refine ⟨hov, ?_⟩
  have hgo := (h.2.2.2.1 (by rw [hov, hval]; norm_num)).1
  rw [hgo]
  decide

/-! ## Claim C3 — audit writes of evaluate_gate -/

/-- C3 counterexample: on the auto-kill short-circuit path `evaluate_gate`
returns directly (line 132) without calling `_log_gate_evaluation`: with an
execution id and one failing auto-kill rule, one rule is evaluated but zero
database writes happen. -/
theorem C3_counterexample :
    (PrdBRE.evaluateGate (fun _ _ => some true) PrdBRE.noAttr "g" "G" {}
      [{ rule_id := "kr", name := "KillRule",
         condition := .VDict [("field", .VStr "x"),
                              ("operator", .VStr "IS NOT NULL")],
         autoKill := true }] (.VDict []) (some "e1")).2 = [] ∧
    (PrdBRE.evaluateGate (fun _ _ => some true) PrdBRE.noAttr "g" "G" {}
      [{ rule_id := "kr", name := "KillRule",
         condition := .VDict [("field", .VStr "x"),
                              ("operator", .VStr "IS NOT NULL")],
         autoKill := true }] (.VDict []) (some "e1")).1.rule_results.length
      = 1 :=
  ⟨rfl, rfl⟩

/-- C3 (amended): given an execution id, one GateEvaluation row per rule
evaluated plus one audit row for the aggregate decision are written — but
only on evaluations that complete the rule loop (non-empty rules, no
auto-kill failure); the auto-kill short-circuit path and the no-rules path
write nothing. -/
theorem C3_gate_logging (rm : String → String → Option Bool)
    (ga : PyVal → String → PyVal)
    (gid gname : String) (cfg : PrdBRE.GateConfig)
    (rules : List PrdBRE.BRRule) (ctx : PyVal) (e : String) :
    ((∀ r ∈ rules, PrdBRE.killsB rm ga ctx r = false) → rules ≠ [] →
      (PrdBRE.evaluateGate rm ga gid gname cfg rules ctx (some e)).2 =
        ((PrdBRE.evaluateGate rm ga gid gname cfg rules ctx
            (some e)).1.rule_results.map
          (fun r => PrdBRE.LogWrite.gateEval e gid r.rule_id
            (PrdBRE.evaluateGate rm ga gid gname cfg rules ctx
              (some e)).1.decision r.passed r.score r.reason))
        ++ [PrdBRE.LogWrite.audit e gid
              (PrdBRE.evaluateGate rm ga gid gname cfg rules ctx
                (some e)).1.decision
              (PrdBRE.evaluateGate rm ga gid gname cfg rules ctx
                (some e)).1.overall_score
              (PrdBRE.evaluateGate rm ga gid gname cfg rules ctx
                (some e)).1.reason
              rules.length
              ((rules.map (PrdBRE.evaluateRule rm ga · ctx)).filter
                (·.passed)).length] ∧
      (PrdBRE.evaluateGate rm ga gid gname cfg rules ctx
        (some e)).1.rule_results.length = rules.length)
    ∧ ((∃ r ∈ rules, PrdBRE.killsB rm ga ctx r = true) →
        (PrdBRE.evaluateGate rm ga gid gname cfg rules ctx (some e)).2 = [])
    ∧ (rules = [] →
        (PrdBRE.evaluateGate rm ga gid gname cfg rules ctx (some e)).2 = []) := by
  refine ⟨?_, ?_, ?_⟩
  · intro hkills hne
    have hkey := evaluateGate_no_kill rm ga gid gname cfg rules ctx (some e)
      hkills hne
    rw [hkey]
    dsimp only
    unfold PrdBRE.logGateEvaluation
    constructor
    · rw [List.length_map]
    · rw [List.length_map]
  · intro h
    obtain ⟨pre, k, post, heq, hpre, hk⟩ :=
      exists_first_kill rm ga ctx rules h
    have hE : rules.isEmpty = false := by
      rw [heq]
      cases pre <;> rfl
    unfold PrdBRE.evaluateGate
    rw [hE, heq]
    simp only [Bool.false_eq_true, if_false]
    rw [gateLoop_kill rm ga ctx pre k post [] 0 0 [] [] hpre hk]
  · intro h
    subst h
    rfl

/-- C3 witness: a one-rule passing gate writes one rule row plus one audit
row; a one-rule failing auto-kill gate writes nothing. -/
theorem C3_witness :
    (PrdBRE.evaluateGate (fun _ _ => some true) PrdBRE.noAttr "g1" "G1" {}
      [{ rule_id := "r1", name := "R1",
         condition := .VDict [("field", .VStr "x"),
                              ("operator", .VStr "IS NOT NULL")] }]
      (.VDict [("x", .VInt 1)]) (some "e9")).1.rule_results.length = 1 ∧
    (PrdBRE.evaluateGate (fun _ _ => some true) PrdBRE.noAttr "g1" "G1" {} []
      (.VDict []) (some "e9")).2 = [] :=
  ⟨((C3_gate_logging (fun _ _ => some true) PrdBRE.noAttr "g1" "G1" {}
      [{ rule_id := "r1", name := "R1",
         condition := .VDict [("field", .VStr "x"),
                              ("operator", .VStr "IS NOT NULL")] }]
      (.VDict [("x", .VInt 1)]) "e9").1
      (by
        intro r hr
        rw [List.mem_singleton.mp hr]
        rfl)
      (List.cons_ne_nil _ _)).2,
   (C3_gate_logging (fun _ _ => some true) PrdBRE.noAttr "g1" "G1" {} []
      (.VDict []) "e9").2.2 rfl⟩

/-- C1 counterexample, two divergences from the claimed scoring rule.
First, a gate configured `gate_type = "human"` with a passing rule reaches
score 100 ≥ T = 80 yet returns PENDING_HUMAN_REVIEW (`passed = False`),
not a pass-class decision.  Second, with a negative rule weight the guard
`if total_weight > 0` (line 149) makes `evaluate_gate` return
`overall_score = 0` and decision REJECT, although the claimed formula
`Σ(wᵢ·sᵢ)/Σwᵢ` evaluates to 100 ≥ T = 80, a pass-class score — so the
claimed aggregation also fails when the total weight is not positive. -/
theorem C1_counterexample :
    (PrdBRE.evaluateGate (fun _ _ => some true) PrdBRE.noAttr "gh" "GH"
      { gate_type := "human" }
      [{ rule_id := "r1", name := "R1",
         condition := .VDict [("field", .VStr "x"),
                              ("operator", .VStr "IS NOT NULL")] }]
      (.VDict [("x", .VInt 1)]) Option.none).1.decision =
      "PENDING_HUMAN_REVIEW" ∧
    (80 : ℚ) ≤
      (PrdBRE.evaluateGate (fun _ _ => some true) PrdBRE.noAttr "gh" "GH"
        { gate_type := "human" }
        [{ rule_id := "r1", name := "R1",
           condition := .VDict [("field", .VStr "x"),
                                ("operator", .VStr "IS NOT NULL")] }]
        (.VDict [("x", .VInt 1)]) Option.none).1.overall_score ∧
    (PrdBRE.evaluateGate (fun _ _ => some true) PrdBRE.noAttr "gh" "GH"
      { gate_type := "human" }
      [{ rule_id := "r1", name := "R1",
         condition := .VDict [("field", .VStr "x"),
                              ("operator", .VStr "IS NOT NULL")] }]
      (.VDict [("x", .VInt 1)]) Option.none).1.passed = false ∧
    (PrdBRE.evaluateGate (fun _ _ => some true) PrdBRE.noAttr "gn" "GN" {}
      [{ rule_id := "r1", name := "R1",
         condition := .VDict [("field", .VStr "x"),
                              ("operator", .VStr "IS NOT NULL")],
         weight := -10 }]
      (.VDict [("x", .VInt 1)]) Option.none).1.overall_score = 0 ∧
    PrdBRE.weightedScoreSum (fun _ _ => some true) PrdBRE.noAttr
        (.VDict [("x", .VInt 1)])
        [{ rule_id := "r1", name := "R1",
           condition := .VDict [("field", .VStr "x"),
                                ("operator", .VStr "IS NOT NULL")],
           weight := -10 }] /
      PrdBRE.totalWeight
        [{ rule_id := "r1", name := "R1",
           condition := .VDict [("field", .VStr "x"),
                                ("operator", .VStr "IS NOT NULL")],
           weight := -10 }] = 100 ∧
    (PrdBRE.evaluateGate (fun _ _ => some true) PrdBRE.noAttr "gn" "GN" {}
      [{ rule_id := "r1", name := "R1",
         condition := .VDict [("field", .VStr "x"),
                              ("operator", .VStr "IS NOT NULL")],
         weight := -10 }]
      (.VDict [("x", .VInt 1)]) Option.none).1.decision = "REJECT" := by
  have hkey := evaluateGate_no_kill (fun _ _ => some true) PrdBRE.noAttr
    "gh" "GH"
    { gate_type := "human" }
    [{ rule_id := "r1", name := "R1",
       condition := .VDict [("field", .VStr "x"),
                            ("operator", .VStr "IS NOT NULL")] }]
    (.VDict [("x", .VInt 1)]) Option.none
    (by
      intro r hr
      rw [List.mem_singleton.mp hr]
      rfl)
    (List.cons_ne_nil _ _)
  have hrule : PrdBRE.evaluateRule (fun _ _ => some true) PrdBRE.noAttr
      { rule_id := "r1", name := "R1",
        condition := .VDict [("field", .VStr "x"),
                             ("operator", .VStr "IS NOT NULL")] }
      (.VDict [("x", .VInt 1)]) =
      { rule_id := "r1", rule_name := "R1", passed := true, score := 100,
        reason := "Condition satisfied" } := rfl
  have hkey2 := evaluateGate_no_kill (fun _ _ => some true) PrdBRE.noAttr
    "gn" "GN" {}
    [{ rule_id := "r1", name := "R1",
       condition := .VDict [("field", .VStr "x"),
                            ("operator", .VStr "IS NOT NULL")],
       weight := -10 }]
    (.VDict [("x", .VInt 1)]) Option.none
    (by
      intro r hr
      rw [List.mem_singleton.mp hr]
      rfl)
    (List.cons_ne_nil _ _)
  have hrule2 : PrdBRE.evaluateRule (fun _ _ => some true) PrdBRE.noAttr
      { rule_id := "r1", name := "R1",
        condition := .VDict [("field", .VStr "x"),
                             ("operator", .VStr "IS NOT NULL")],
        weight := -10 }
      (.VDict [("x", .VInt 1)]) =
      { rule_id := "r1", rule_name := "R1", passed := true, score := 100,
        reason := "Condition satisfied" } := rfl
  have hcf2 : PrdBRE.criticalNames (fun _ _ => some true) PrdBRE.noAttr
      (.VDict [("x", .VInt 1)])
      [{ rule_id := "r1", name := "R1",
         condition := .VDict [("field", .VStr "x"),
                              ("operator", .VStr "IS NOT NULL")],
         weight := -10 }] = [] := rfl
  have hrecs2 : PrdBRE.humanRecs (fun _ _ => some true) PrdBRE.noAttr
      (.VDict [("x", .VInt 1)])
      [{ rule_id := "r1", name := "R1",
         condition := .VDict [("field", .VStr "x"),
                              ("operator", .VStr "IS NOT NULL")],
         weight := -10 }] = [] := rfl
  refine ⟨?_, ?_, ?_, ?_, ?_, ?_⟩
  · rw [hkey]
    rfl
  · rw [hkey]
    dsimp only
    norm_num [PrdBRE.weightedScoreSum, PrdBRE.totalWeight,
      List.map_singleton, List.sum_singleton, hrule]
  · rw [hkey]
    rfl
  · rw [hkey2]
    dsimp only
    norm_num [PrdBRE.totalWeight, List.map_singleton, List.sum_singleton]
  · unfold PrdBRE.weightedScoreSum PrdBRE.totalWeight
    rw [List.map_singleton, List.map_singleton, hrule2]
    norm_num
  · rw [hkey2]
    dsimp only
    rw [hcf2, hrecs2]
    norm_num [PrdBRE.totalWeight, List.map_singleton, List.sum_singleton]
    decide

/-! ## Claim C7 — prompt chaining -/

/-- The `results` accumulator of the chaining loop only prepends. -/
theorem chainLoop_acc (step : String → Dict → Except String AgOrch.NodeExecutionResult) :
    ∀ (children : List String) (input : Dict)
      (acc : List AgOrch.NodeExecutionResult),
    AgOrch.chainLoop step children input acc =
      (AgOrch.chainLoop step children input []).map
        (fun p => (p.1, acc ++ p.2)) := by
  intro children
  induction children with
  | nil => intro input acc; simp [AgOrch.chainLoop, Except.map]
  | cons c rest ih =>
    intro input acc
    unfold AgOrch.chainLoop
    cases h : step c input with
    | error e => simp [h, Except.map, Except.bind, Bind.bind]
    | ok r =>
      simp only [h, Except.bind, Bind.bind, bind]
      by_cases hs : r.status = AgOrch.NodeStatus.completed
      · simp only [hs, ne_eq, not_true_eq_false, Bool.false_eq_true, if_false,
          reduceIte]
        rw [ih r.output_data (acc ++ [r]), ih r.output_data ([] ++ [r])]
        cases hrec : AgOrch.chainLoop step rest r.output_data [] with
        | error e => simp [Except.map]
        | ok p => simp [Except.map]
      · simp [hs, Except.map]

/-- C7: prompt chaining runs children strictly in order, threads each
child's output into the next child's input, and stops at the first child
whose execution does not complete: (a) a first child that fails leaves the
remaining children unexecuted — for children `A :: rest` (so in particular
`[A, B, C]`) the pattern's result records only A, whatever `rest` is;
(b) a completed first child is followed by the chain on the rest, started
on that child's output; (c) in the prd orchestrator's chaining branch a
raised child exception stops the loop and propagates. -/
theorem C7_prompt_chaining :
    (∀ (step : String → Dict → Except String AgOrch.NodeExecutionResult)
       (nid A : String) (rest : List String) (input : Dict)
       (rA : AgOrch.NodeExecutionResult),
       step A input = .ok rA → rA.status ≠ .completed →
       AgOrch.promptChaining step nid (A :: rest) input =
         .ok (.mk nid .completed input Option.none [rA]))
    ∧ (∀ (step : String → Dict → Except String AgOrch.NodeExecutionResult)
       (nid c : String) (rest : List String) (input : Dict)
       (rc res' : AgOrch.NodeExecutionResult),
       step c input = .ok rc → rc.status = .completed →
       AgOrch.promptChaining step nid rest rc.output_data = .ok res' →
       AgOrch.promptChaining step nid (c :: rest) input =
         .ok (.mk nid .completed res'.output_data Option.none
           (rc :: res'.child_results)))
    ∧ (∀ (step : String → Except String (Option Dict)) (A : String)
       (rest : List String) (e : String),
       step A = .error e →
       PrdOrch.promptChaining step (A :: rest) = .error e) := by
  refine ⟨?_, ?_, ?_⟩
  · intro step nid A rest input rA hA hs
    unfold AgOrch.promptChaining AgOrch.chainLoop
    simp [hA, hs, Except.bind, Bind.bind, pure, Except.pure]
  · intro step nid c rest input rc res' hc hs hrest
    unfold AgOrch.promptChaining at hrest ⊢
    unfold AgOrch.chainLoop
    simp only [hc, Except.bind, Bind.bind, bind, hs, ne_eq,
      not_true_eq_false, Bool.false_eq_true, if_false, reduceIte]
    rw [chainLoop_acc step rest rc.output_data ([] ++ [rc])]
    cases hcl : AgOrch.chainLoop step rest rc.output_data [] with
    | error e =>
      rw [hcl] at hrest
      simp [Except.bind, Bind.bind] at hrest
    | ok p =>
      rw [hcl] at hrest
      simp only [Except.bind, Bind.bind, bind, pure, Except.pure] at hrest
      cases hrest
      simp [Except.map, Except.bind, Bind.bind, pure, Except.pure,
        AgOrch.NodeExecutionResult.output_data,
        AgOrch.NodeExecutionResult.child_results]
  · intro step A rest e hA
    unfold PrdOrch.promptChaining PrdOrch.prdChain
    simp [hA, Except.bind, Bind.bind]

/-- C7 witness: with a concrete step where A fails, children `[A, B, C]`
execute only A; and a concrete failing prd chain propagates. -/
theorem C7_witness :
    AgOrch.promptChaining
      (fun c _ =>
        if c = "A" then
          .ok (.mk "A" .failed [] (some "boom") [])
        else .ok (.mk c .completed [] Option.none []))
      "p" ["A", "B", "C"] [("k", .VInt 1)] =
      .ok (.mk "p" .completed [("k", .VInt 1)] Option.none
        [.mk "A" .failed [] (some "boom") []]) ∧
    PrdOrch.promptChaining
      (fun c => if c = "A" then .error "invocation failed" else .ok (some []))
      ["A", "B", "C"] = .error "invocation failed" :=
  ⟨C7_prompt_chaining.1
      (fun c _ =>
        if c = "A" then
          .ok (.mk "A" .failed [] (some "boom") [])
        else .ok (.mk c .completed [] Option.none []))
      "p" "A" ["B", "C"] [("k", .VInt 1)]
      (.mk "A" .failed [] (some "boom") []) rfl (by
        intro h
        cases h),
   C7_prompt_chaining.2.2
      (fun c => if c = "A" then .error "invocation failed" else .ok (some []))
      "A" ["B", "C"] "invocation failed" rfl⟩

/-! ## Claim C8 — parallelization -/

theorem filterMap_completed_length :
    ∀ (rs : List (Except String AgOrch.NodeExecutionResult)),
    (rs.filterMap (fun r =>
      match r with
      | .ok r =>
        if r.status = AgOrch.NodeStatus.completed then some r else Option.none
      | .error _ => Option.none)).length =
    (rs.filter AgOrch.isCompleted).length := by
  intro rs
  induction rs with
  | nil => rfl
  | cons r rest ih =>
    cases r with
    | error e => simpa [List.filterMap_cons, List.filter_cons, AgOrch.isCompleted] using ih
    | ok rr =>
      by_cases h : rr.status = AgOrch.NodeStatus.completed <;>
        simpa [List.filterMap_cons, List.filter_cons, AgOrch.isCompleted, h]
          using ih

/-- C8: parallelization runs every child on the same input and aggregates:
`total_count` is the number of children, `success_count` the number of
children whose (independent) execution completed; concretely for `[A, B]`
with A completing and B raising, the aggregate reports success 1 of 2 and
still carries A's output, confirming a failing child does not abort or
erase its siblings. -/
theorem C8_parallelization :
    (∀ (step : String → Dict → Except String AgOrch.NodeExecutionResult)
       (nid : String) (children : List String) (input : Dict),
       dlookup (AgOrch.parallelization step nid children input).output_data
         "total_count" = some (.VInt children.length) ∧
       dlookup (AgOrch.parallelization step nid children input).output_data
         "success_count" =
         some (.VInt
           ((children.map (fun c => step c input)).filter
             AgOrch.isCompleted).length))
    ∧ (∀ (step : String → Dict → Except String AgOrch.NodeExecutionResult)
       (nid A B : String) (input : Dict) (rA : AgOrch.NodeExecutionResult)
       (e : String),
       step A input = .ok rA → rA.status = .completed →
       step B input = .error e →
       AgOrch.parallelization step nid [A, B] input =
         .mk nid .completed
           [("parallel_results", .VList [.VDict rA.output_data]),
            ("success_count", .VInt 1), ("total_count", .VInt 2)]
           Option.none [rA]) := by
  constructor
  · intro step nid children input
    unfold AgOrch.parallelization
    constructor
    · simp [AgOrch.NodeExecutionResult.output_data, dlookup]
    · have hlen := filterMap_completed_length
        (children.map (fun c => step c input))
      rw [List.filterMap_map] at hlen
      simp [AgOrch.NodeExecutionResult.output_data, dlookup, hlen]
  · intro step nid A B input rA e hA hcA hB
    unfold AgOrch.parallelization
    simp [hA, hB, hcA, List.filterMap_cons]

/-- C8 witness. -/
theorem C8_witness :
    dlookup (AgOrch.parallelization
      (fun c _ =>
        if c = "B" then .error "boom"
        else .ok (.mk c .completed [("out", .VInt 7)] Option.none []))
      "par" ["A", "B"] []).output_data "total_count" = some (.VInt 2) ∧
    AgOrch.parallelization
      (fun c _ =>
        if c = "B" then .error "boom"
        else .ok (.mk c .completed [("out", .VInt 7)] Option.none []))
      "par" ["A", "B"] [] =
      .mk "par" .completed
        [("parallel_results", .VList [.VDict [("out", .VInt 7)]]),
         ("success_count", .VInt 1), ("total_count", .VInt 2)]
        Option.none [.mk "A" .completed [("out", .VInt 7)] Option.none []] :=
  ⟨(C8_parallelization.1
      (fun c _ =>
        if c = "B" then .error "boom"
        else .ok (.mk c .completed [("out", .VInt 7)] Option.none []))
      "par" ["A", "B"] []).1,
   C8_parallelization.2
      (fun c _ =>
        if c = "B" then .error "boom"
        else .ok (.mk c .completed [("out", .VInt 7)] Option.none []))
      "par" "A" "B" [] (.mk "A" .completed [("out", .VInt 7)] Option.none [])
      "boom" rfl rfl rfl⟩

/-! ## Claim C9 — evaluator-optimizer -/

theorem pyLt_num (a b : PyVal) (ha : isNum a = true) (hb : isNum b = true) :
    pyLt a b = .ok (decide (ratOf a < ratOf b)) := by
  cases a <;> cases b <;> simp_all [isNum] <;> (unfold pyLt; simp [isNum])

theorem pyEq_num (a b : PyVal) (ha : isNum a = true) (hb : isNum b = true) :
    pyEq a b = (ratOf a == ratOf b) := by
  cases a <;> cases b <;> simp_all [isNum] <;> (unfold pyEq; simp [isNum])

theorem pyGt_zz : pyGt (.VInt 0) (.VInt 0) = .ok false := by
  unfold pyGt
  rw [pyLt_num (.VInt 0) (.VInt 0) rfl rfl]
  simp [ratOf]

theorem pyGe_zero_pos (threshold : PyVal) (hnum : isNum threshold = true)
    (hpos : 0 < ratOf threshold) :
    pyGe (.VInt 0) threshold = .ok false := by
  unfold pyGe pyLe
  have hz : isNum (.VInt 0) = true := rfl
  rw [pyLt_num threshold (.VInt 0) hnum hz,
    pyEq_num threshold (.VInt 0) hnum hz]
  have hz0 : ratOf (.VInt 0) = 0 := by simp [ratOf]
  have h1 : ¬ (ratOf threshold < ratOf (.VInt 0)) := by
    rw [hz0]
    linarith
  have h2 : (ratOf threshold == ratOf (.VInt 0)) = false := by
    rw [hz0]
    simp
    exact ne_of_gt hpos
  simp [h1, h2, Except.bind, Bind.bind, pure, Except.pure]

/-- With a constant-zero evaluator score and a strictly positive numeric
threshold, the loop never replaces the (absent) best result, never meets the
threshold, and runs all remaining iterations. -/
theorem evalOptLoop_all_zero
    (step : String → Dict → Except String AgOrch.NodeExecutionResult)
    (g e : String) (input : Dict) (threshold : PyVal)
    (genR evalR : AgOrch.NodeExecutionResult)
    (hg : step g input = .ok genR)
    (he : step e genR.output_data = .ok evalR)
    (hscore : AgOrch.getScore evalR.output_data = .VInt 0)
    (hnum : isNum threshold = true) (hpos : 0 < ratOf threshold) :
    ∀ (n : Nat) (iters : List AgOrch.IterRec) (i : Nat),
    AgOrch.evalOptLoop step g e input threshold n Option.none (.VInt 0) iters i
      = .ok (Option.none, .VInt 0,
          iters ++ (List.range n).map
            (fun j => ⟨i + j + 1, genR.output_data, evalR.output_data,
              .VInt 0⟩)) := by
  intro n
  induction n with
  | zero => intro iters i; simp [AgOrch.evalOptLoop]
  | succ n ih =>
    intro iters i
    unfold AgOrch.evalOptLoop
    rw [hg]
    simp only [Except.bind, Bind.bind, bind]
    rw [he]
    simp only [hscore]
    rw [pyGt_zz]
    simp only [Bool.false_eq_true, if_false, reduceIte]
    rw [pyGe_zero_pos threshold hnum hpos]
    simp only [Bool.false_eq_true, if_false, reduceIte]
    rw [ih (iters ++ [(⟨i + 1, genR.output_data, evalR.output_data,
      .VInt 0⟩ : AgOrch.IterRec)]) (i + 1)]
    congr 1
    refine congrArg _ (congrArg _ ?_)
    rw [List.append_assoc]
    congr 1
    rw [List.range_succ_eq_map, List.map_cons, List.map_map,
      List.singleton_append]
    congr 1
    refine List.map_congr_left ?_
    intro j _
    simp only [Function.comp_apply]
    congr 1
    omega

/-- C9 counterexample: with `quality_threshold = 0` (an explicit config
value) and a constant evaluator score of 0, the loop stops after the FIRST
iteration — score 0 already meets the threshold — so with
`max_iterations = 3` the trace has length 1, not 3, even though every
iteration's score is 0 and `best_result` is `None` with `best_score` 0. -/
theorem C9_counterexample :
    AgOrch.evaluatorOptimizer
      (fun nid _ => .ok (.mk nid .completed
        (if nid = "e" then [("score", .VInt 0)] else [("v", .VInt 1)])
        Option.none []))
      "opt" ["g", "e"] []
      { max_iterations := 3, quality_threshold := .VInt 0 } =
      .ok (.mk "opt" .completed
        [("best_result", .VNone), ("best_score", .VInt 0),
         ("iterations", .VList
           [.VDict [("iteration", .VInt 1),
                    ("generation", .VDict [("v", .VInt 1)]),
                    ("evaluation", .VDict [("score", .VInt 0)]),
                    ("score", .VInt 0)]]),
         ("total_iterations", .VInt 1)]
        Option.none []) := by
  have hgt := pyGt_zz
  have hge : pyGe (.VInt 0) (.VInt 0) = .ok true := by
    unfold pyGe pyLe
    rw [pyLt_num (.VInt 0) (.VInt 0) rfl rfl,
      pyEq_num (.VInt 0) (.VInt 0) rfl rfl]
    simp [ratOf, Except.bind, Bind.bind, pure, Except.pure]
  unfold AgOrch.evaluatorOptimizer AgOrch.evalOptLoop
  simp only [Except.bind, Bind.bind, bind, reduceIte,
    AgOrch.NodeExecutionResult.output_data]
  rw [show (AgOrch.getScore [("score", PyVal.VInt 0)]) = .VInt 0 from rfl]
  rw [hgt]
  simp only [Bool.false_eq_true, if_false, reduceIte]
  rw [hge]
  simp [AgOrch.IterRec.toVal, pure, Except.pure]

/-- C9 (amended): the best result is only replaced on a strictly greater
score — an iteration whose score is not strictly above the best (ties
included) leaves best/best_score untouched; and provided the quality
threshold is a number strictly greater than 0, all-zero (or missing)
evaluator scores drive the loop to its max-iteration bound, returning
`best_result = None`, `best_score = 0` and a trace of length
`max_iterations` (non-empty whenever the bound is positive).  With a
threshold ≤ 0 the loop instead stops after the first iteration. -/
theorem C9_evaluator_optimizer :
    (∀ (step : String → Dict → Except String AgOrch.NodeExecutionResult)
       (g e : String) (input : Dict) (threshold : PyVal) (n : Nat)
       (best : Option Dict) (bestScore : PyVal)
       (iters : List AgOrch.IterRec) (i : Nat)
       (genR evalR : AgOrch.NodeExecutionResult),
       step g input = .ok genR → step e genR.output_data = .ok evalR →
       pyGt (AgOrch.getScore evalR.output_data) bestScore = .ok false →
       pyGe (AgOrch.getScore evalR.output_data) threshold = .ok false →
       AgOrch.evalOptLoop step g e input threshold (n + 1) best bestScore
         iters i =
       AgOrch.evalOptLoop step g e input threshold n best bestScore
         (iters ++ [⟨i + 1, genR.output_data, evalR.output_data,
           AgOrch.getScore evalR.output_data⟩]) (i + 1))
    ∧ (∀ (step : String → Dict → Except String AgOrch.NodeExecutionResult)
       (nid g e : String) (input : Dict) (threshold : PyVal) (n : Nat)
       (genR evalR : AgOrch.NodeExecutionResult),
       step g input = .ok genR → step e genR.output_data = .ok evalR →
       AgOrch.getScore evalR.output_data = .VInt 0 →
       isNum threshold = true → 0 < ratOf threshold →
       AgOrch.evaluatorOptimizer step nid [g, e] input
         { max_iterations := n, quality_threshold := threshold } =
         .ok (.mk nid .completed
           [("best_result", .VNone), ("best_score", .VInt 0),
            ("iterations", .VList ((List.range n).map
              (fun j => AgOrch.IterRec.toVal
                ⟨j + 1, genR.output_data, evalR.output_data, .VInt 0⟩))),
            ("total_iterations", .VInt n)]
           Option.none [])) := by
  constructor
  · intro step g e input threshold n best bestScore iters i genR evalR
      hg he hgt hge
    conv_lhs => unfold AgOrch.evalOptLoop
    rw [hg]
    simp only [Except.bind, Bind.bind, bind]
    rw [he]
    dsimp only
    rw [hgt]
    simp only [Bool.false_eq_true, if_false, reduceIte]
    rw [hge]
    simp
  · intro step nid g e input threshold n genR evalR hg he hscore hnum hpos
    unfold AgOrch.evaluatorOptimizer
    dsimp only
    rw [evalOptLoop_all_zero step g e input threshold genR evalR hg he hscore
      hnum hpos n [] 0]
    simp [List.length_map, pure, Except.pure, Except.bind, Bind.bind]

/-- C9 witness: a concrete all-zero run with threshold 0.8 and
max_iterations 3 produces three iterations and no best result; a concrete
tied iteration leaves the best untouched. -/
theorem C9_witness :
    AgOrch.evaluatorOptimizer
      (fun nid _ => .ok (.mk nid .completed
        (if nid = "e" then [("score", .VInt 0)] else [("v", .VInt 1)])
        Option.none []))
      "opt" ["g", "e"] [] {} =
      .ok (.mk "opt" .completed
        [("best_result", .VNone), ("best_score", .VInt 0),
         ("iterations", .VList ((List.range 3).map
           (fun j => AgOrch.IterRec.toVal
             ⟨j + 1, [("v", .VInt 1)], [("score", .VInt 0)], .VInt 0⟩))),
         ("total_iterations", .VInt 3)]
        Option.none []) :=
  C9_evaluator_optimizer.2
    (fun nid _ => .ok (.mk nid .completed
      (if nid = "e" then [("score", .VInt 0)] else [("v", .VInt 1)])
      Option.none []))
    "opt" "g" "e" [] (.VFloat (4 / 5)) 3
    (.mk "g" .completed [("v", .VInt 1)] Option.none [])
    (.mk "e" .completed [("score", .VInt 0)] Option.none [])
    rfl rfl rfl rfl (by norm_num [ratOf])

/-! ## Claim C6 — validator / evaluator grammar agreement -/

/-- C6 counterexample: the node `{"field": "x", "IN": "x", "values": []}`
is rejected by `validate_rule_syntax` (field without operator) but evaluated
without any error by `_evaluate_node` (the comparison guard needs both
`field` and `operator`, so the node is processed as a membership test). -/
theorem C6_counterexample :
    AgBRE.validateNode AgBRE.fieldInLeaf =
      .error "Comparison expression requires operator" ∧
    AgBRE.evalNode (fun _ _ => some true) AgBRE.fieldInLeaf (.VDict []) =
      .ok false :=
  ⟨rfl, rfl⟩

theorem validateNodeList_ok (cs : List PyVal)
    (h : ∀ c ∈ cs, AgBRE.validateNode c = .ok ()) :
    AgBRE.validateNodeList cs = .ok () := by
  induction cs with
  | nil => rfl
  | cons c rest ih =>
    unfold AgBRE.validateNodeList
    rw [h c (List.mem_cons_self c rest)]
    exact ih (fun q hq => h q (List.mem_cons_of_mem c hq))

theorem evalNodeList_ns (rm : String → String → Option Bool) (ctx : PyVal)
    (cs : List PyVal)
    (h : ∀ c ∈ cs, ∀ m, AgBRE.evalNode rm c ctx ≠ .error (.structural m)) :
    ∀ m, AgBRE.evalNodeList rm cs ctx ≠ .error (.structural m) := by
  induction cs with
  | nil => intro m hc; cases hc
  | cons c rest ih =>
    intro m
    unfold AgBRE.evalNodeList
    cases hc : AgBRE.evalNode rm c ctx with
    | error e =>
      cases e with
      | structural s => exact absurd hc (h c (List.mem_cons_self c rest) s)
      | valueErr s => simp [Except.bind, Bind.bind]
    | ok b =>
      simp only [Except.bind, Bind.bind, bind]
      cases hrest : AgBRE.evalNodeList rm rest ctx with
      | error e =>
        intro hcontra
        simp only [] at hcontra
        exact ih (fun q hq => h q (List.mem_cons_of_mem c hq)) m
          (by rw [hrest]; cases hcontra; rfl)
      | ok bs => simp [pure, Except.pure]

theorem evalComparison_canon (f op : String) (v ctx : PyVal)
    (hop : op ∈ AgBRE.comparisonOps ∨ op = "IS NULL" ∨ op = "IS NOT NULL") :
    ∀ m, AgBRE.evalComparison
      [("field", .VStr f), ("operator", .VStr op), ("value", v)] ctx ≠
      .error (.structural m) := by
  intro m
  unfold AgBRE.evalComparison
  simp only [dlookup, reduceIte, String.reduceEq]
  cases hf : AgBRE.getFieldValue f ctx with
  | error e => simp [Except.mapError, Except.bind, Bind.bind]
  | ok a =>
    simp only [Except.mapError, Except.bind, Bind.bind, bind]
    by_cases h1 : op = "IS NULL"
    · simp [h1, pure, Except.pure]
    · by_cases h2 : op = "IS NOT NULL"
      · simp [h1, h2, pure, Except.pure]
      · have hin : op ∈ AgBRE.comparisonOps := by
          
          rcases hop with h | h | h
          · exact h
          · exact absurd h h1
          · exact absurd h h2
        have hct : AgBRE.comparisonOps.contains op = true :=
          List.elem_eq_true_of_mem hin
        simp only [h1, h2, Bool.false_eq_true, if_false, reduceIte, hct,
          Bool.not_true]
        cases hcmp : AgBRE.applyCmpOp op (AgBRE.coerceTypes a v).1
            (AgBRE.coerceTypes a v).2 with
        | error e => simp [hcmp, Except.mapError]
        | ok b => simp [hcmp, Except.mapError]

theorem validate_cmp_ok (f op : String) (v : PyVal)
    (hop : op ∈ AgBRE.comparisonOps ∨ op = "IS NULL" ∨ op = "IS NOT NULL") :
    AgBRE.validateNode
      (.VDict [("field", .VStr f), ("operator", .VStr op), ("value", v)]) =
      .ok () := by
  unfold AgBRE.validateNode
  simp only [dlookup, reduceIte, String.reduceEq]
  rcases hop with h | h | h
  · have hct : AgBRE.comparisonOps.contains op = true :=
      List.elem_eq_true_of_mem h
    simp [hct]
    intro hno _
    exact absurd h hno
  · simp [h]
  · simp [h]

theorem canon_in_ns (rm : String → String → Option Bool) (f : String)
    (hf : f ≠ "") (vs : List PyVal) (ctx : PyVal) (inKey : Bool) :
    ∀ m, AgBRE.evalNode rm
      (.VDict [((if inKey then "IN" else "NOT IN"), .VStr f),
               ("values", .VList vs)]) ctx ≠
      .error (.structural m) := by
  have htr : pyTruthy (.VStr f) = true := by
    simp [pyTruthy]
    exact hf
  have hvn : pyTruthy PyVal.VNone = false := rfl
  intro m
  cases inKey <;>
  · unfold AgBRE.evalNode AgBRE.evalMembership AgBRE.orGet
    simp only [dlookup, reduceIte, String.reduceEq, Option.getD, Option.isSome,
      Bool.and_eq_true, Bool.false_eq_true, if_false, if_true, htr, hvn]
    cases hfv : AgBRE.getFieldValue f ctx with
    | error e => simp [hfv, hvn, htr, Except.mapError, Except.bind, Bind.bind]
    | ok a =>
      simp [hfv, hvn, htr, Except.mapError, Except.bind, Bind.bind, pyIn, pure,
        Except.pure]

theorem canon_matches_ns (rm : String → String → Option Bool)
    (f pat : String) (ctx : PyVal) :
    ∀ m, AgBRE.evalNode rm
      (.VDict [("MATCHES", .VDict [("field", .VStr f),
                                   ("pattern", .VStr pat)])]) ctx ≠
      .error (.structural m) := by
  intro m
  unfold AgBRE.evalNode AgBRE.evalPatternMatch
  simp only [dlookup, reduceIte, String.reduceEq, Option.isSome,
    Bool.and_eq_true, Bool.false_eq_true, if_false, if_true]
  cases hfv : AgBRE.getFieldValue f ctx with
  | error e => simp [hfv, Except.mapError, Except.bind, Bind.bind]
  | ok a =>
    simp only [hfv, Except.mapError, Except.bind, Bind.bind, bind]
    cases hrm : rm pat (pyStr a) with
    | some b => simp [pure, Except.pure]
    | none => simp [throw, throwThe, MonadExceptOf.throw]

theorem canon_contains_ns (rm : String → String → Option Bool)
    (f sub : String) (ctx : PyVal) :
    ∀ m, AgBRE.evalNode rm
      (.VDict [("CONTAINS", .VDict [("field", .VStr f),
                                    ("value", .VStr sub)])]) ctx ≠
      .error (.structural m) := by
  intro m
  unfold AgBRE.evalNode AgBRE.evalContains
  simp only [dlookup, reduceIte, String.reduceEq, Option.isSome,
    Bool.and_eq_true, Bool.false_eq_true, if_false, if_true]
  cases hfv : AgBRE.getFieldValue f ctx with
  | error e => simp [hfv, Except.mapError, Except.bind, Bind.bind]
  | ok a => simp [hfv, Except.mapError, Except.bind, Bind.bind, pure,
      Except.pure]

/-- C6 (amended): the two walks diverge — the validator accepts
IS NULL / IS NOT NULL leaves without a `"value"` key on which the evaluator
raises a structural `KeyError` under every context (and, per the
counterexample, rejects field+IN nodes the evaluator accepts) — while on
the canonical grammar (AND/OR/NOT combinations over comparison leaves
carrying field, operator and value, plus the canonical
IN / NOT IN / MATCHES / CONTAINS forms) the validator accepts and the
evaluator never reports a structural error, under any context. -/
theorem C6_validator_evaluator_grammar (rm : String → String → Option Bool) :
    (AgBRE.validateNode AgBRE.isNullLeaf = .ok () ∧
      ∀ ctx, AgBRE.evalNode rm AgBRE.isNullLeaf ctx =
        .error (.structural "KeyError: value"))
    ∧ (∀ t, AgBRE.Canon t →
        AgBRE.validateNode t = .ok () ∧
        ∀ ctx m, AgBRE.evalNode rm t ctx ≠ .error (.structural m)) := by
  constructor
  · exact ⟨rfl, fun ctx => rfl⟩
  · intro t hc
    induction hc with
    | cmp f op v hop =>
      refine ⟨validate_cmp_ok f op v hop, ?_⟩
      intro ctx m
      have hcmp := evalComparison_canon f op v ctx hop m
      unfold AgBRE.evalNode
      simp only [dlookup, reduceIte, String.reduceEq, Option.isSome,
        Bool.and_eq_true, if_true]
      exact hcmp
    | andN cs h ih =>
      constructor
      · unfold AgBRE.validateNode
        simp only [dlookup, reduceIte, String.reduceEq]
        exact validateNodeList_ok cs (fun c hcm => (ih c hcm).1)
      · intro ctx m
        unfold AgBRE.evalNode
        simp only [dlookup, reduceIte, String.reduceEq]
        have hns := evalNodeList_ns rm ctx cs (fun c hcm => (ih c hcm).2 ctx)
        cases hl : AgBRE.evalNodeList rm cs ctx with
        | error e =>
          cases e with
          | structural s => exact absurd hl (hns s)
          | valueErr s => simp [hl, Except.bind, Bind.bind]
        | ok bs => simp [hl, Except.bind, Bind.bind, pure, Except.pure]
    | orN cs h ih =>
      constructor
      · unfold AgBRE.validateNode
        simp only [dlookup, reduceIte, String.reduceEq]
        exact validateNodeList_ok cs (fun c hcm => (ih c hcm).1)
      · intro ctx m
        unfold AgBRE.evalNode
        simp only [dlookup, reduceIte, String.reduceEq]
        have hns := evalNodeList_ns rm ctx cs (fun c hcm => (ih c hcm).2 ctx)
        cases hl : AgBRE.evalNodeList rm cs ctx with
        | error e =>
          cases e with
          | structural s => exact absurd hl (hns s)
          | valueErr s => simp [hl, Except.bind, Bind.bind]
        | ok bs => simp [hl, Except.bind, Bind.bind, pure, Except.pure]
    | notN c h ih =>
      constructor
      · unfold AgBRE.validateNode
        simp only [dlookup, reduceIte, String.reduceEq]
        exact ih.1
      · intro ctx m
        unfold AgBRE.evalNode
        simp only [dlookup, reduceIte, String.reduceEq]
        cases hl : AgBRE.evalNode rm c ctx with
        | error e =>
          cases e with
          | structural s => exact absurd hl (ih.2 ctx s)
          | valueErr s => simp [hl, Except.bind, Bind.bind]
        | ok b => simp [hl, Except.bind, Bind.bind, pure, Except.pure]
    | inN f hfne vs =>
      constructor
      · unfold AgBRE.validateNode
        simp [dlookup]
      · intro ctx m
        have := canon_in_ns rm f hfne vs ctx true m
        simpa using this
    | notInN f hfne vs =>
      constructor
      · unfold AgBRE.validateNode
        simp [dlookup]
      · intro ctx m
        have := canon_in_ns rm f hfne vs ctx false m
        simpa using this
    | matchesN f pat =>
      constructor
      · unfold AgBRE.validateNode
        simp [dlookup]
      · intro ctx m
        exact canon_matches_ns rm f pat ctx m
    | containsN f sub =>
      constructor
      · unfold AgBRE.validateNode
        simp [dlookup]
      · intro ctx m
        exact canon_contains_ns rm f sub ctx m

/-- C6 witness: the amended theorem applied to a concrete canonical tree
and a concrete context. -/
theorem C6_witness :
    AgBRE.validateNode
      (.VDict [("AND", .VList
        [.VDict [("field", .VStr "x"), ("operator", .VStr ">"),
                 ("value", .VInt 5)]])]) = .ok () ∧
    AgBRE.evalNode (fun _ _ => some true)
      (.VDict [("AND", .VList
        [.VDict [("field", .VStr "x"), ("operator", .VStr ">"),
                 ("value", .VInt 5)]])])
      (.VDict [("x", .VInt 9)]) ≠
      .error (.structural "Unknown expression node type") := by
  have hcanon : AgBRE.Canon
      (.VDict [("AND", .VList
        [.VDict [("field", .VStr "x"), ("operator", .VStr ">"),
                 ("value", .VInt 5)]])]) := by
    refine AgBRE.Canon.andN _ ?_
    intro c hc
    rw [List.mem_singleton.mp hc]
    exact AgBRE.Canon.cmp "x" ">" (.VInt 5) (Or.inl (by decide))
  have h := (C6_validator_evaluator_grammar (fun _ _ => some true)).2 _ hcanon
  exact ⟨h.1, h.2 (.VDict [("x", .VInt 9)]) "Unknown expression node type"⟩
